import Mathlib

/-!
Verification of the image-management core of the ebiten repository.

The development shallow-embeds three layers of the source:

* the `shareable` package (`src/unnamed/part_001`): atlas backends, the
  promotion/demotion policy, `TryAlloc`, `DrawTriangles`, `ReplacePixels`,
  `makeImagesShared`;
* the `restorable` package's restore scheduler (`src/internal/restorable/images.go`):
  the topological sort used by `(*images).restore`;
* the public image façade (`src/unnamed/part_000`): `NewImage`, `DrawTriangles`
  index checks, `Set`/`At` with the pending-pixel buffer, `SubImage`/`Bounds`.

The packing `Page` and the `restorable.Image` pixel store are code of the
repository that is not under `src/`; definitions for them are modelled from the
spec and carry a `Modelled from the spec:` note in their doc comment.
Go pointer identity is embedded as numeric ids into association-list stores,
and Go panics are embedded as `Except.error` with the source's message.
-/

namespace Ebiten

/-! ### Association-list stores (embedding of Go pointers / maps) -/

/-- Lookup in an association list keyed by numeric ids. -/
def lookupA {α : Type} : List (Nat × α) → Nat → Option α
  | [], _ => none
  | e :: t, k => if e.1 = k then some e.2 else lookupA t k

/-- Remove a key from an association list. -/
def eraseA {α : Type} : List (Nat × α) → Nat → List (Nat × α)
  | [], _ => []
  | e :: t, k => if e.1 = k then eraseA t k else e :: eraseA t k

/-- Insert or overwrite a key in an association list. -/
def setA {α : Type} (l : List (Nat × α)) (k : Nat) (v : α) : List (Nat × α) :=
  (k, v) :: eraseA l k

theorem lookupA_setA_same {α : Type} (l : List (Nat × α)) (k : Nat) (v : α) :
    lookupA (setA l k v) k = some v := by
  simp [lookupA, setA]

theorem lookupA_eraseA_ne {α : Type} (l : List (Nat × α)) {k k' : Nat}
    (h : k ≠ k') : lookupA (eraseA l k) k' = lookupA l k' := by
  induction l with
  | nil => rfl
  | cons e t ih =>
    by_cases he : e.1 = k
    · have hne : e.1 ≠ k' := by rw [he]; exact h
      simp [lookupA, eraseA, he, hne, ih, h]
    · by_cases he' : e.1 = k'
      · simp [lookupA, eraseA, he, he', Ne.symm h]
      · simp [lookupA, eraseA, he, he', ih]

theorem lookupA_setA_ne {α : Type} (l : List (Nat × α)) {k k' : Nat} (v : α)
    (h : k ≠ k') : lookupA (setA l k v) k' = lookupA l k' := by
  simp only [setA, lookupA, if_neg h]
  exact lookupA_eraseA_ne l h

/-! ### Packing: `Page` and its partition tree

Modelled from the spec: the `internal/packing` package is not under `src/`.
Spec §3 and §4.1 describe it: a guillotine-style binary partition tree inside a
square page of side `size ≤ maxSize`; `alloc(w,h)` descends, splitting a free
leaf along the axis that minimizes leftover; `extend()` doubles the side when
`size < maxSize`, exposing the new area as free nodes adjoining the old ones
and preserving existing allocations' coordinates; `free` marks the leaf free
and coalesces fully-free siblings; `clone` is pure. -/

/-- A rectangle `(x, y, w, h)` inside a page. -/
structure PRect where
  x : Nat
  y : Nat
  w : Nat
  h : Nat
deriving DecidableEq, Repr

/-- The binary partition tree: a node is free, allocated as a leaf, or split. -/
inductive PTree where
  | free : PRect → PTree
  | used : PRect → PTree
  | split : PRect → PTree → PTree → PTree
deriving DecidableEq, Repr

/-- Modelled from the spec: `alloc` on the partition tree. A free leaf that
fits is taken exactly, or split (vertically when the horizontal leftover is at
least the vertical leftover, mirroring "the split axis minimizes leftover"),
with the allocation landing in the first child; a split node tries its children
in order. The allocated node always has exactly the requested size. -/
def PTree.alloc : PTree → Nat → Nat → Option (PRect × PTree)
  | .used _, _, _ => none
  | .free r, w, h =>
    if w ≤ r.w ∧ h ≤ r.h then
      if r.w = w ∧ r.h = h then
        some (r, .used r)
      else if r.w - w ≥ r.h - h then
        -- split vertically: child0 takes the left band of width w
        let c0r : PRect := ⟨r.x, r.y, w, r.h⟩
        let c1 : PTree := .free ⟨r.x + w, r.y, r.w - w, r.h⟩
        if c0r.h = h then
          some (c0r, .split r (.used c0r) c1)
        else
          -- child0 is split again horizontally; its top part is taken
          let a : PRect := ⟨r.x, r.y, w, h⟩
          let b : PTree := .free ⟨r.x, r.y + h, w, r.h - h⟩
          some (a, .split r (.split c0r (.used a) b) c1)
      else
        -- split horizontally: child0 takes the top band of height h
        let c0r : PRect := ⟨r.x, r.y, r.w, h⟩
        let c1 : PTree := .free ⟨r.x, r.y + h, r.w, r.h - h⟩
        if c0r.w = w then
          some (c0r, .split r (.used c0r) c1)
        else
          let a : PRect := ⟨r.x, r.y, w, h⟩
          let b : PTree := .free ⟨r.x + w, r.y, r.w - w, h⟩
          some (a, .split r (.split c0r (.used a) b) c1)
    else none
  | .split r c0 c1, w, h =>
    if w ≤ r.w ∧ h ≤ r.h then
      match c0.alloc w h with
      | some (n, c0') => some (n, .split r c0' c1)
      | none =>
        match c1.alloc w h with
        | some (n, c1') => some (n, .split r c0 c1')
        | none => none
    else none

/-- Modelled from the spec: mark the allocated leaf with the given rectangle
free again, coalescing siblings bottom-up when both become fully free. -/
def PTree.freeN : PTree → PRect → PTree
  | .used u, r => if u = r then .free u else .used u
  | .free f, _ => .free f
  | .split s c0 c1, r =>
    match c0.freeN r, c1.freeN r with
    | .free _, .free _ => .free s
    | c0', c1' => .split s c0' c1'

/-- Whether the tree contains any allocated leaf. -/
def PTree.hasAllocated : PTree → Bool
  | .free _ => false
  | .used _ => true
  | .split _ c0 c1 => c0.hasAllocated || c1.hasAllocated

/-- Modelled from the spec: a square page of side `size ≤ maxSize` holding the
partition tree. `clone` is the identity in this pure embedding. -/
structure Page where
  root : PTree
  size : Nat
  maxSize : Nat
deriving DecidableEq, Repr

/-- A fresh page: one free node covering the whole square. -/
def Page.newPage (size maxSize : Nat) : Page :=
  ⟨.free ⟨0, 0, size, size⟩, size, maxSize⟩

/-- Embeds `Alloc` on a page. The source packing package rejects non-positive sizes
(a Go panic); the model returns failure for them. -/
def Page.alloc (p : Page) (w h : Nat) : Option (PRect × Page) :=
  if w = 0 ∨ h = 0 then none
  else
    match p.root.alloc w h with
    | some (n, t) => some (n, ⟨t, p.size, p.maxSize⟩)
    | none => none

/-- Modelled from the spec: `Extend` doubles the side when `size < maxSize`
(returning `none` for the Go `false` otherwise), exposing the new area as free
nodes adjoining the old tree and preserving existing coordinates. -/
def Page.extend (p : Page) : Option Page :=
  if p.size < p.maxSize then
    let s := p.size
    let ns := s * 2
    let left : PTree := .split ⟨0, 0, s, ns⟩ p.root (.free ⟨0, s, s, ns - s⟩)
    some ⟨.split ⟨0, 0, ns, ns⟩ left (.free ⟨s, 0, ns - s, ns⟩), ns, p.maxSize⟩
  else none

/-- Embeds `Free` on a page. -/
def Page.free (p : Page) (r : PRect) : Page :=
  ⟨p.root.freeN r, p.size, p.maxSize⟩

/-- Embeds `IsEmpty` on a page. -/
def Page.isEmpty (p : Page) : Bool :=
  !p.root.hasAllocated

/-- Runs `n` successive successful extensions (`none` if one of them fails). -/
def Page.extendN (p : Page) : Nat → Option Page
  | 0 => some p
  | n + 1 =>
    match p.extend with
    | none => none
    | some q => q.extendN n

/-- The commit loop of `TryAlloc`: `for i := 0; i < n; i++ b.page.Extend()`,
ignoring the boolean result as the source does. -/
def Page.commitExtend (p : Page) : Nat → Page
  | 0 => p
  | n + 1 => ((p.extend).getD p).commitExtend n

/-- The planning loop of `(*backend).TryAlloc` (src/unnamed/part_001:105-117):
on a clone of the page, extend and retry allocation until it succeeds,
counting extensions; fail when the page cannot be extended any more. `fuel`
bounds the loop; `p.maxSize + 1` is proved sufficient below. -/
def tryAllocLoop (w h : Nat) : Nat → Page → Nat → Option Nat
  | 0, _, _ => none
  | fuel + 1, p, n =>
    match p.extend with
    | none => none
    | some q =>
      match q.alloc w h with
      | some _ => some (n + 1)
      | none => tryAllocLoop w h fuel q (n + 1)

/-- The page-level core of `(*backend).TryAlloc` (src/unnamed/part_001:98-130):
try a direct allocation; otherwise plan the minimum number of extensions on a
clone, commit them to the live page, and allocate. Returns the node, the
updated page and the number of committed extensions. The source panics if the
final allocation fails ("Alloc result must not be nil at TryAlloc"); the model
returns `none` there (proved unreachable). The accompanying restorable
extension is handled by the state-level wrapper. -/
def pageTryAlloc (p : Page) (w h : Nat) : Option (PRect × Page × Nat) :=
  match p.alloc w h with
  | some (r, p') => some (r, p', 0)
  | none =>
    match tryAllocLoop w h (p.maxSize + 1) p 0 with
    | none => none
    | some n =>
      let q := p.commitExtend n
      match q.alloc w h with
      | some (r, q') => some (r, q', n)
      | none => none

/-! ### The `shareable` package (src/unnamed/part_001)

The package's global mutable state (`theBackends`, `imagesToMakeShared`, the
image and backend heap objects, `minSize`/`maxSize`) is embedded as one record
`ShState`. Heap pointers become numeric ids; `restorable.Image` objects are
kept as ids with their sizes (their pixel stores are observed through the
`log` of issued driver operations). Go panics become `Except.error` with the
source's message; `model:` errors mark dangling ids unreachable from
well-formed states. -/

/-- Composite modes (only identity of `CompositeModeCopy` matters here). -/
inductive CompMode where
  | copy
  | sourceOver
deriving DecidableEq, Repr

/-- Observable operations issued to the restorable layer. -/
inductive DrawEvent where
  | drawTri : Nat → Nat → CompMode → DrawEvent
  | replacePix : Nat → Nat → Nat → Nat → Nat → Option Nat → DrawEvent
  | clearPix : Nat → Nat → Nat → Nat → Nat → DrawEvent
deriving DecidableEq, Repr

/-- The fields of `shareable.Image` (src/unnamed/part_001:151-171). -/
structure ImgRec where
  width : Nat
  height : Nat
  disposed : Bool
  backend : Option Nat
  node : Option PRect
  nonUpdatedCount : Nat
  neverShared : Bool
deriving DecidableEq, Repr

/-- A `backend`: a restorable (id) plus an optional page
(src/unnamed/part_001:91-96). -/
structure SBackend where
  rest : Nat
  page : Option Page
deriving DecidableEq, Repr

/-- The global state of the shareable package. -/
structure ShState where
  nextRest : Nat
  nextBackend : Nat
  nextImg : Nat
  rests : List (Nat × (Nat × Nat))
  backends : List (Nat × SBackend)
  imgs : List (Nat × ImgRec)
  theBackends : List Nat
  toShare : List Nat
  minSize : Nat
  maxSize : Nat
  log : List DrawEvent
deriving DecidableEq, Repr

/-- Embeds `MaxCountForShare` (src/unnamed/part_001:75). -/
def MaxCountForShare : Nat := 10

/-- Embeds `(*Image).isShared` (src/unnamed/part_001:182-184). -/
def ImgRec.isShared (rec : ImgRec) : Bool :=
  rec.node.isSome

/-- Embeds `isShareable()` and `(*Image).shareable` (src/unnamed/part_001:147-149,
440-448). -/
def shareableImg (st : ShState) (rec : ImgRec) : Bool :=
  decide (0 < st.minSize) && decide (0 < st.maxSize) && !rec.neverShared
    && decide (rec.width ≤ st.maxSize) && decide (rec.height ≤ st.maxSize)

/-- Embeds `(*Image).region` (src/unnamed/part_001:245-254). -/
def regionOf (st : ShState) (i : Nat) : Except String (Nat × Nat × Nat × Nat) :=
  match lookupA st.imgs i with
  | none => .error "model: unknown image"
  | some rec =>
    match rec.backend with
    | none => .error "shareable: backend must not be nil: not allocated yet?"
    | some bid =>
      match rec.node with
      | some nd => .ok (nd.x, nd.y, nd.w, nd.h)
      | none =>
        match lookupA st.backends bid with
        | none => .error "model: unknown backend"
        | some b =>
          match lookupA st.rests b.rest with
          | none => .error "model: unknown restorable"
          | some wh => .ok (0, 0, wh.1, wh.2)

/-- Embeds `(*backend).TryAlloc` at the state level (src/unnamed/part_001:98-130):
runs the page-level planner `pageTryAlloc` and, when extensions were
committed, replaces the backing restorable by one extended to the new page
size (`b.restorable = b.restorable.Extend(s, s)`, the old one disposed). -/
def stTryAlloc (st : ShState) (bid : Nat) (w h : Nat) :
    Except String (Option (PRect × ShState)) :=
  match lookupA st.backends bid with
  | none => .error "model: unknown backend"
  | some b =>
    match b.page with
    | none => .error "model: TryAlloc on a backend without a page"
    | some pg =>
      match pageTryAlloc pg w h with
      | none => .ok none
      | some (r, pg', 0) =>
        .ok (some (r, { st with backends := setA st.backends bid ({ b with page := some pg' }) }))
      | some (r, pg', _ + 1) =>
        let rid := st.nextRest
        .ok (some (r, { st with
          nextRest := rid + 1,
          rests := setA (eraseA st.rests b.rest) rid (pg'.size, pg'.size),
          backends := setA st.backends bid ⟨rid, some pg'⟩ }))

/-- The loop over `theBackends` in `(*Image).allocate`
(src/unnamed/part_001:463-470). -/
def allocTryBackends (st : ShState) (w h : Nat) :
    List Nat → Except String (Option (Nat × PRect × ShState))
  | [] => .ok none
  | bid :: rest =>
    match stTryAlloc st bid w h with
    | .error e => .error e
    | .ok none => allocTryBackends st w h rest
    | .ok (some (r, st')) => .ok (some (bid, r, st'))

/-- The backend-size doubling loop of `(*Image).allocate`
(src/unnamed/part_001:471-477): start at `minSize`, double while the image
does not fit, panicking at `maxSize`. Fuel-based; `maxSize + 1` is enough for
every reachable call. -/
def growSizeLoop : Nat → Nat → Nat → Nat → Nat → Except String Nat
  | 0, _, _, _, _ => .error "model: growSize out of fuel"
  | fuel + 1, size, maxS, w, h =>
    if size < w ∨ size < h then
      if size = maxS then .error "shareable: the image being shared is too big"
      else growSizeLoop fuel (size * 2) maxS w h
    else .ok size

/-- Embeds `(*Image).allocate` (src/unnamed/part_001:450-492). In the model the
private branch also drops the fresh backend record when the image is later
disposed; a backend holds a fresh restorable of the image's own size, or a
node in a (possibly new) atlas backend. -/
def allocate (st : ShState) (i : Nat) (share : Bool) : Except String ShState :=
  match lookupA st.imgs i with
  | none => .error "model: unknown image"
  | some rec =>
    match rec.backend with
    | some _ => .error "shareable: the image is already allocated"
    | none =>
      if share = false ∨ shareableImg st rec = false then
        let rid := st.nextRest
        let bid := st.nextBackend
        .ok { st with
          nextRest := rid + 1,
          nextBackend := bid + 1,
          rests := setA st.rests rid (rec.width, rec.height),
          backends := setA st.backends bid ⟨rid, none⟩,
          imgs := setA st.imgs i ({ rec with backend := some bid }) }
      else
        match allocTryBackends st rec.width rec.height st.theBackends with
        | .error e => .error e
        | .ok (some (bid, r, st')) =>
          .ok { st' with imgs := setA st'.imgs i ({ rec with backend := some bid, node := some r }) }
        | .ok none =>
          match growSizeLoop (st.maxSize + 1) st.minSize st.maxSize rec.width rec.height with
          | .error e => .error e
          | .ok size =>
            let rid := st.nextRest
            let bid := st.nextBackend
            let pg := Page.newPage size st.maxSize
            match pg.alloc rec.width rec.height with
            | none => .error "shareable: Alloc result must not be nil at allocate"
            | some (r, pg') =>
              .ok { st with
                nextRest := rid + 1,
                nextBackend := bid + 1,
                rests := setA st.rests rid (size, size),
                backends := setA st.backends bid ⟨rid, some pg'⟩,
                theBackends := st.theBackends ++ [bid],
                imgs := setA st.imgs i ({ rec with backend := some bid, node := some r }) }

/-- Embeds `(*Image).dispose` (src/unnamed/part_001:375-420). The deferred block of
the source (mark disposed, clear `backend` and `node`) is applied on every
path; backend records that become garbage are dropped from the store. -/
def dispose (st : ShState) (i : Nat) (mark : Bool) : Except String ShState :=
  match lookupA st.imgs i with
  | none => .error "model: unknown image"
  | some rec =>
    let recFin : ImgRec :=
      { rec with disposed := rec.disposed || mark, backend := none, node := none }
    let fin : ShState → ShState := fun st' =>
      { st' with imgs := setA st'.imgs i recFin }
    if rec.disposed then .ok (fin st)
    else
      match rec.backend with
      | none => .ok (fin st)
      | some bid =>
        match lookupA st.backends bid with
        | none => .error "model: unknown backend"
        | some b =>
          match rec.node with
          | none =>
            -- not shared: dispose the private restorable
            .ok (fin { st with rests := eraseA st.rests b.rest,
                               backends := eraseA st.backends bid })
          | some nd =>
            match b.page with
            | none => .error "model: shared image with pageless backend"
            | some pg =>
              let pg' := pg.free nd
              if pg'.isEmpty = false then
                -- the freed part can be reused: clear it explicitly
                .ok (fin { st with
                  backends := setA st.backends bid ({ b with page := some pg' }),
                  log := .clearPix b.rest nd.x nd.y nd.w nd.h :: st.log })
              else
                if bid ∈ st.theBackends then
                  .ok (fin { st with
                    rests := eraseA st.rests b.rest,
                    backends := eraseA st.backends bid,
                    theBackends := st.theBackends.filter (fun x => !(x == bid)) })
                else .error "shareable: backend not found at an image being disposed"

/-- Embeds `(*Image).moveTo` (src/unnamed/part_001:173-180): dispose the destination
without marking it, copy every field of the source record over it, and drop
the moved-from record (its finalizer is cleared so it is never disposed). -/
def moveTo (st : ShState) (src dst : Nat) : Except String ShState :=
  match dispose st dst false with
  | .error e => .error e
  | .ok st₁ =>
    match lookupA st₁.imgs src with
    | none => .error "model: unknown image"
    | some srcRec =>
      .ok { st₁ with imgs := setA (eraseA st₁.imgs src) dst srcRec }

/-- The body of `(*Image).replacePixels` after allocation
(src/unnamed/part_001:341-347): compute the region, check the length of a
non-nil buffer, and forward to the backing restorable (a log event here). -/
def replacePixelsBody (st : ShState) (i : Nat) (p : Option Nat) : Except String ShState :=
  match regionOf st i with
  | .error e => .error e
  | .ok (x, y, w, h) =>
    match lookupA st.imgs i with
    | none => .error "model: unknown image"
    | some rec =>
      match rec.backend with
      | none => .error "model: backend must not be nil"
      | some bid =>
        match lookupA st.backends bid with
        | none => .error "model: unknown backend"
        | some b =>
          match p with
          | some len =>
            if len = 4 * w * h then
              .ok { st with log := .replacePix b.rest x y w h (some len) :: st.log }
            else .error "shareable: len(p) must be 4 * width * height"
          | none => .ok { st with log := .replacePix b.rest x y w h none :: st.log }

/-- Embeds `(*Image).replacePixels` (src/unnamed/part_001:330-348). The pixel buffer
is carried as its length (`none` embeds a nil buffer). -/
def replacePixels (st : ShState) (i : Nat) (p : Option Nat) : Except String ShState :=
  match lookupA st.imgs i with
  | none => .error "model: unknown image"
  | some rec =>
    if rec.disposed then .error "shareable: the image must not be disposed at replacePixels"
    else
      match rec.backend with
      | none =>
        match p with
        | none => .ok st
        | some _ =>
          match allocate st i true with
          | .error e => .error e
          | .ok st₁ => replacePixelsBody st₁ i p
      | some _ => replacePixelsBody st i p

/-- Embeds `(*Image).ensureNotShared` (src/unnamed/part_001:192-213): an unallocated
image is allocated privately; a shared one gets a fresh private restorable of
its region size, filled by a `CompositeModeCopy` draw from the atlas, after
which the old node is released. -/
def ensureNotShared (st : ShState) (i : Nat) : Except String ShState :=
  match lookupA st.imgs i with
  | none => .error "model: unknown image"
  | some rec =>
    match rec.backend with
    | none => allocate st i false
    | some bid =>
      match rec.node with
      | none => .ok st
      | some _ =>
        match regionOf st i with
        | .error e => .error e
        | .ok (_, _, w, h) =>
          match lookupA st.backends bid with
          | none => .error "model: unknown backend"
          | some b =>
            let rid := st.nextRest
            let st₁ := { st with
              nextRest := rid + 1,
              rests := setA st.rests rid (w, h),
              log := .drawTri rid b.rest .copy :: st.log }
            match dispose st₁ i false with
            | .error e => .error e
            | .ok st₂ =>
              match lookupA st₂.imgs i with
              | none => .error "model: unknown image"
              | some rec₂ =>
                let nbid := st₂.nextBackend
                .ok { st₂ with
                  nextBackend := nbid + 1,
                  backends := setA st₂.backends nbid ⟨rid, none⟩,
                  imgs := setA st₂.imgs i ({ rec₂ with backend := some nbid }) }

/-- Embeds `(*Image).DrawTriangles` (src/unnamed/part_001:270-300): dispose checks,
lazy allocation of the source, demotion of the target, the identity check on
the two restorables, the draw itself, and the bookkeeping of
`nonUpdatedCount` and `imagesToMakeShared`. -/
def shDrawTriangles (st : ShState) (i img : Nat) (mode : CompMode) : Except String ShState :=
  match lookupA st.imgs img, lookupA st.imgs i with
  | none, _ => .error "model: unknown image"
  | _, none => .error "model: unknown image"
  | some srcRec, some tgtRec =>
    if srcRec.disposed then
      .error "shareable: the drawing source image must not be disposed (DrawTriangles)"
    else if tgtRec.disposed then
      .error "shareable: the drawing target image must not be disposed (DrawTriangles)"
    else
      match (if srcRec.backend = none then allocate st img true else .ok st) with
      | .error e => .error e
      | .ok st₁ =>
        match ensureNotShared st₁ i with
        | .error e => .error e
        | .ok st₂ =>
          match lookupA st₂.imgs i, lookupA st₂.imgs img with
          | some tgt₂, some src₂ =>
            match tgt₂.backend, src₂.backend with
            | some tb, some sb =>
              match lookupA st₂.backends tb, lookupA st₂.backends sb with
              | some tbk, some sbk =>
                if tbk.rest = sbk.rest then
                  .error "shareable: Image.DrawTriangles: img must be different from the receiver"
                else
                  let st₃ := { st₂ with log := .drawTri tbk.rest sbk.rest mode :: st₂.log }
                  let st₄ := { st₃ with
                    imgs := setA st₃.imgs i ({ tgt₂ with nonUpdatedCount := 0 }),
                    toShare := st₃.toShare.filter (fun x => !(x == i)) }
                  if src₂.node = none ∧ shareableImg st₄ src₂ then
                    .ok { st₄ with toShare :=
                      if img ∈ st₄.toShare then st₄.toShare else st₄.toShare ++ [img] }
                  else .ok st₄
              | _, _ => .error "model: unknown backend"
            | _, _ => .error "model: image not allocated after ensureNotShared"
          | _, _ => .error "model: unknown image"

/-- Embeds `(*Image).makeShared` (src/unnamed/part_001:215-243): allocate a fresh
image of the same size, upload the pixels read from the private backend
(`4*w*h` bytes), swap the records with `moveTo`, and reset the counter. -/
def makeShared (st : ShState) (i : Nat) : Except String ShState :=
  match lookupA st.imgs i with
  | none => .error "model: unknown image"
  | some rec =>
    match rec.backend with
    | none => allocate st i true
    | some _ =>
      if rec.isShared then .ok st
      else if shareableImg st rec = false then
        .error "shareable: makeShared cannot be called on a non-shareable image"
      else
        let j := st.nextImg
        let st₁ :=
          { st with
            nextImg := j + 1,
            imgs := setA st.imgs j ⟨rec.width, rec.height, false, none, none, 0, false⟩ }
        match replacePixels st₁ j (some (4 * rec.width * rec.height)) with
        | .error e => .error e
        | .ok st₂ =>
          match moveTo st₂ j i with
          | .error e => .error e
          | .ok st₃ =>
            match lookupA st₃.imgs i with
            | none => .error "model: unknown image"
            | some rec₃ =>
              .ok { st₃ with imgs := setA st₃.imgs i ({ rec₃ with nonUpdatedCount := 0 }) }

/-- The loop body of `makeImagesShared` (src/unnamed/part_001:77-85),
iterating over a snapshot of the candidate set: increment the counter,
promote at `MaxCountForShare`, and always delete the entry. -/
def makeImagesSharedLoop : ShState → List Nat → Except String ShState
  | st, [] => .ok st
  | st, i :: rest =>
    match lookupA st.imgs i with
    | none => .error "model: unknown image"
    | some rec =>
      let rec1 : ImgRec := { rec with nonUpdatedCount := rec.nonUpdatedCount + 1 }
      let st₁ := { st with imgs := setA st.imgs i rec1 }
      match (if MaxCountForShare ≤ rec.nonUpdatedCount + 1 then makeShared st₁ i else .ok st₁) with
      | .error e => .error e
      | .ok st₂ =>
        makeImagesSharedLoop { st₂ with toShare := st₂.toShare.filter (fun x => !(x == i)) } rest

/-- Embeds `makeImagesShared`, the before-update frame-boundary hook
(src/unnamed/part_001:50-69, 77-85). -/
def makeImagesShared (st : ShState) : Except String ShState :=
  makeImagesSharedLoop st st.toShare

/-- Embeds `shareable.NewImage` (src/unnamed/part_001:432-438): lazy, no validation,
no allocation. -/
def shNewImage (st : ShState) (w h : Nat) : Nat × ShState :=
  (st.nextImg,
    { st with
      nextImg := st.nextImg + 1,
      imgs := setA st.imgs st.nextImg ⟨w, h, false, none, none, 0, false⟩ })

/-- Embeds `(*Image).at` (src/unnamed/part_001:356-367): a not-yet-allocated image
reads as transparent zeros, as does an out-of-bounds coordinate. A real read
of allocated pixels goes to the restorable pixel store, which lives outside
this structural model (the façade model below carries pixels); it is reported
as `none` here. -/
def atImg (st : ShState) (i : Nat) (x y : Nat) :
    Except String (Option (Nat × Nat × Nat × Nat)) :=
  match lookupA st.imgs i with
  | none => .error "model: unknown image"
  | some rec =>
    match rec.backend with
    | none => .ok (some (0, 0, 0, 0))
    | some _ =>
      match regionOf st i with
      | .error e => .error e
      | .ok (_, _, w, h) =>
        if w ≤ x ∨ h ≤ y then .ok (some (0, 0, 0, 0))
        else .ok none

/-- One frame in which `src` is used only as a draw source (into `tgt`) and
never as a target: the before-update hook runs, then the draw. -/
def sourceOnlyFrame (st : ShState) (src tgt : Nat) (mode : CompMode) : Except String ShState :=
  match makeImagesShared st with
  | .error e => .error e
  | .ok st₁ => shDrawTriangles st₁ tgt src mode

/-- Iterate `sourceOnlyFrame`. -/
def iterFrames (src tgt : Nat) (mode : CompMode) : Nat → ShState → Except String ShState
  | 0, st => .ok st
  | n + 1, st =>
    match sourceOnlyFrame st src tgt mode with
    | .error e => .error e
    | .ok st₁ => iterFrames src tgt mode n st₁

/-- A family of initial states for the promotion scenario: image 0 is a
private promotion candidate of size `w × h` with `nonUpdatedCount = 0`
(backend 0, restorable 0), image 1 is the not-yet-allocated draw target, no
atlas backend exists yet, and the driver chose `minSize = 1024`,
`maxSize = 4096`. -/
def c1Init (w h : Nat) : ShState :=
  { nextRest := 1, nextBackend := 1, nextImg := 2,
    rests := [(0, (w, h))],
    backends := [(0, ⟨0, none⟩)],
    imgs := [(0, ⟨w, h, false, some 0, none, 0, false⟩), (1, ⟨w, h, false, none, none, 0, false⟩)],
    theBackends := [], toShare := [0],
    minSize := 1024, maxSize := 4096, log := [] }

/-- The state reached from `c1Init w h` after `k` source-only frames
(`1 ≤ k ≤ 9`): the target image 1 has its own private backend 1, image 0 is
still private on backend 0 with `nonUpdatedCount = k`, and each frame logged
one draw from restorable 0 into restorable 1. -/
def c1Mid (w h : Nat) (m : CompMode) (k : Nat) : ShState :=
  ⟨2, 2, 2, [(1, (w, h)), (0, (w, h))], [(1, ⟨1, none⟩), (0, ⟨0, none⟩)],
   [(1, ⟨w, h, false, some 1, none, 0, false⟩), (0, ⟨w, h, false, some 0, none, k, false⟩)],
   [], [0], 1024, 4096, List.replicate k (.drawTri 1 0 m)⟩

/-! ### The restore scheduler (src/internal/restorable/images.go:149-211)

`(*images).restore` topologically sorts the non-priority restorable images by
their history dependencies, after seeding the output with the priority images.
Go iterates maps in unspecified order; the embedding fixes list order, one
determinization of the source. Images are ids; the `priority` flag and the
`dependingImages()` sets are parameters. -/

/-- Whether `i` is the target of no remaining edge (membership of `current`
in the loop of src/internal/restorable/images.go:180-189). -/
def noIncoming (edges : List (Nat × Nat)) (i : Nat) : Bool :=
  !(edges.any (fun e => e.2 == i))

/-- The `for len(images) > 0` loop of `(*images).restore`
(src/internal/restorable/images.go:179-203): take the images with no incoming
edge, append them to `sorted`, delete them and their outgoing edges. The Go
loop runs forever when no progress is possible; the fuel (one unit per
non-empty round) makes the embedding total. -/
def kahnLoop : Nat → List Nat → List (Nat × Nat) → List Nat → List Nat
  | 0, _, _, sorted => sorted
  | fuel + 1, images, edges, sorted =>
    if images.isEmpty then sorted
    else
      let current := images.filter (noIncoming edges)
      let images' := images.filter (fun i => !(current.contains i))
      let edges' := edges.filter (fun e => !(current.contains e.1))
      kahnLoop fuel images' edges' (sorted ++ current)

/-- Embeds `(*images).restore`'s ordering phase
(src/internal/restorable/images.go:154-203): non-priority images form the
vertex set, edges go from each source in `dependingImages()` to its target,
and the output starts with the priority images. -/
def restoreOrder (imgs : List Nat) (prio : Nat → Bool) (deps : Nat → List Nat) : List Nat :=
  let nonPr := imgs.filter (fun i => !prio i)
  let edges := nonPr.flatMap (fun t => (deps t).map (fun s => (s, t)))
  kahnLoop nonPr.length nonPr edges (imgs.filter prio)

/-- Predicate: `a` occurs strictly before `b` in the list. -/
def precedesIn (l : List Nat) (a b : Nat) : Prop :=
  ∃ l₁ l₂, l = l₁ ++ l₂ ∧ a ∈ l₁ ∧ b ∈ l₂

/-! ### The façade: `DrawTriangles` checks (src/unnamed/part_000:388-433) -/

/-- The façade-level state of an image that matters for the `DrawTriangles`
entry checks: disposal, sub-image-ness, and the pending `Set` buffer
(carried as its length). -/
structure F6 where
  disposed : Bool
  subImg : Bool
  pendingLen : Option Nat
  w : Nat
  h : Nat
deriving DecidableEq, Repr

/-- Embeds `(*Image).resolvePendingPixels(true)` on a root image
(src/unnamed/part_000:560-577): upload the pending buffer through the façade
`ReplacePixels` (which panics on a length mismatch) and clear it. -/
def resolve6 (i : F6) : Option F6 :=
  match i.pendingLen with
  | none => some i
  | some l =>
    if i.disposed then some { i with pendingLen := none }
    else if i.subImg then none
    else if l = 4 * (i.w * i.h) then some { i with pendingLen := none }
    else none

/-- Outcome of a façade `DrawTriangles` call. -/
inductive D6 where
  | noop : D6
  | panicked : String → D6
  | drew : D6
deriving DecidableEq, Repr

/-- The entry of the façade `(*Image).DrawTriangles`
(src/unnamed/part_000:388-433): no-op on a disposed target, panic on a
sub-image target, pending-pixel resolution on both images, then the two index
checks, then the draw. `maxIndicesNum` embeds the driver constant
`MaxIndicesNum = graphics.IndicesNum` (its package is not under `src/`; the
spec calls it "a fixed driver constant", so it stays a parameter). -/
def fDrawTriangles (i img : F6) (nIdx maxIndicesNum : Nat) : D6 :=
  if i.disposed then .noop
  else if i.subImg then .panicked "ebiten: render to a subimage is not implemented (DrawTriangles)"
  else
    match resolve6 img, resolve6 i with
    | some _, some _ =>
      if nIdx % 3 ≠ 0 then .panicked "ebiten: len(indices) % 3 must be 0"
      else if maxIndicesNum < nIdx then .panicked "ebiten: len(indices) must be <= MaxIndicesNum"
      else .drew
    | _, _ => .panicked "ebiten: len(p) was not appropriate at ReplacePixels"

/-! ### The façade: `Set` / `At` and the pending-pixel buffer
(src/unnamed/part_000:488-577)

A façade handle is a root image plus an optional sub-image bounds rectangle
(`Set` and `At` on a sub-image delegate to the root with unchanged
coordinates). Coordinates are Go ints; every in-bounds coordinate is
non-negative (sub bounds are intersections with the root rectangle), so the
model uses `Nat`. The backing restorable pixel store is modelled from the
spec: `ReplacePixels(p)` makes `p` the store, `At` reads the byte quadruple
at `4*(x + y*w)`. -/

/-- The root of a façade image: size, the backing pixel store (modelled from
the spec), the pending `Set` buffer, and disposal. -/
structure FRoot where
  w : Nat
  h : Nat
  pix : List Nat
  pending : Option (List Nat)
  disposed : Bool
deriving DecidableEq, Repr

/-- Sub-image bounds (min/max form, all reachable values non-negative). -/
structure NRect where
  x0 : Nat
  y0 : Nat
  x1 : Nat
  y1 : Nat
deriving DecidableEq, Repr

/-- Embeds `image.Pt(x, y).In(bounds)`. -/
def NRect.containsPt (r : NRect) (x y : Nat) : Bool :=
  decide (r.x0 ≤ x) && decide (x < r.x1) && decide (r.y0 ≤ y) && decide (y < r.y1)

/-- Modelled from the spec: a read of the restorable pixel store
("`At(x,y)` returns the corresponding byte quadruple from `p` exactly"). -/
def restAt (pix : List Nat) (idx : Nat) : Nat :=
  pix.getD idx 0

/-- Embeds `(*Image).at` of the shareable layer for a private image
(src/unnamed/part_001:356-367) composed with the spec-modelled restorable
read: out-of-bounds coordinates read as zeros. -/
def shAtPix (w h : Nat) (pix : List Nat) (x y : Nat) : Nat × Nat × Nat × Nat :=
  if w ≤ x ∨ h ≤ y then (0, 0, 0, 0)
  else
    (restAt pix (4 * (x + y * w)), restAt pix (4 * (x + y * w) + 1),
     restAt pix (4 * (x + y * w) + 2), restAt pix (4 * (x + y * w) + 3))

/-- The readback loop of `Set` (src/unnamed/part_000:538-552): build a
`4*w*h` buffer from `At(i, j)` in row-major order; position `4*(i + j*w) + c`
receives byte `c` of pixel `(i, j)`, so the loop enumerates the store
indices `0 .. 4*w*h - 1` in order. -/
def readbackPixels (rt : FRoot) : List Nat :=
  (List.range (4 * (rt.w * rt.h))).map (fun n => restAt rt.pix n)

/-- The façade's sub-image coordinate guard: a sub-image handle whose bounds
do not contain `(x, y)` (`i.isSubImage() && !image.Pt(x, y).In(i.bounds)`). -/
def subMiss (sub : Option NRect) (x y : Nat) : Bool :=
  match sub with
  | some b => !(b.containsPt x y)
  | none => false

/-- The buffer `Set` writes into: the pending buffer when present, otherwise
the readback of the whole image (src/unnamed/part_000:538-552). -/
def pendingOrReadback (rt : FRoot) : List Nat :=
  match rt.pending with
  | none => readbackPixels rt
  | some p => p

/-- Embeds `(*Image).Set` (src/unnamed/part_000:521-558): requires the main loop,
no-ops on a disposed image or an out-of-bounds sub-image coordinate,
delegates a sub-image to its root, fills the pending buffer by readback on
first use, and writes the four bytes `byte(r >> 8) ...` of the 16-bit
premultiplied color at `4*(x + y*w)`. `none` embeds the panic outside the
main loop. -/
def fSet (running : Bool) (rt : FRoot) (sub : Option NRect) (x y : Nat)
    (cr cg cb ca : Nat) : Option FRoot :=
  if running = false then none
  else if rt.disposed then some rt
  else if subMiss sub x y then some rt
  else
    let pend := pendingOrReadback rt
    let idx := 4 * (x + y * rt.w)
    let p' :=
      (((pend.set idx ((cr >>> 8) % 256)).set (idx + 1) ((cg >>> 8) % 256)).set
        (idx + 2) ((cb >>> 8) % 256)).set (idx + 3) ((ca >>> 8) % 256)
    some { rt with pending := some p' }

/-- Embeds `(*Image).At` (src/unnamed/part_000:498-512): requires the main loop,
returns transparent for a disposed image or an out-of-bounds sub-image
coordinate, resolves the pending buffer (the façade `ReplacePixels` checks
its length and replaces the store), and reads through the shareable layer. -/
def fAt (running : Bool) (rt : FRoot) (sub : Option NRect) (x y : Nat) :
    Option (Nat × Nat × Nat × Nat) :=
  if running = false then none
  else if rt.disposed then some (0, 0, 0, 0)
  else if subMiss sub x y then some (0, 0, 0, 0)
  else
    match rt.pending with
    | none => some (shAtPix rt.w rt.h rt.pix x y)
    | some p =>
      if p.length = 4 * (rt.w * rt.h) then
        some (shAtPix rt.w rt.h p x y)
      else none

/-! ### The façade: `NewImage` (src/unnamed/part_000:665-724) -/

/-- The façade `NewImage(width, height, filter)`
(src/unnamed/part_000:673-681): wraps a lazy `shareable.NewImage` in a fresh
handle. The source performs no size validation and has no panic path, for any
`width` and `height`; the `Except` return type records exactly that. -/
def facadeNewImage (st : ShState) (w h : Nat) : Except String (Nat × ShState) :=
  .ok (shNewImage st w h)

/-! ### The façade: `SubImage` / `Bounds` (src/unnamed/part_000:442-481)

Go `image.Rectangle` semantics (`Intersect`, `Empty`, `ZR`) are embedded over
`Int` coordinates following the Go standard library. -/

/-- Go `image.Rectangle` (min/max corners). -/
structure GoRect where
  x0 : Int
  y0 : Int
  x1 : Int
  y1 : Int
deriving DecidableEq, Repr

/-- Go `Rectangle.Empty()`: no points inside. -/
def GoRect.emptyR (r : GoRect) : Bool :=
  decide (r.x1 ≤ r.x0) || decide (r.y1 ≤ r.y0)

/-- Go `image.ZR`, the zero rectangle. -/
def GoRect.zr : GoRect := ⟨0, 0, 0, 0⟩

/-- Go `Rectangle.Intersect`: clip the corners; return `ZR` when the result
is empty. -/
def GoRect.inter (r s : GoRect) : GoRect :=
  let t : GoRect := ⟨max r.x0 s.x0, max r.y0 s.y0, min r.x1 s.x1, min r.y1 s.y1⟩
  if t.emptyR then GoRect.zr else t

/-- A façade handle as `SubImage`/`Bounds` see it: the root size, the stored
sub-image bounds (`none` for a root), and disposal. -/
structure F8 where
  w : Nat
  h : Nat
  sub : Option GoRect
  disposed : Bool
deriving DecidableEq, Repr

/-- The rectangle `i.Bounds()` returns when not disposed
(src/unnamed/part_000:476-480). -/
def F8.boundsRect (i : F8) : GoRect :=
  match i.sub with
  | none => ⟨0, 0, (i.w : Int), (i.h : Int)⟩
  | some b => b

/-- Embeds `(*Image).Bounds` (src/unnamed/part_000:472-481): panics when disposed. -/
def F8.boundsB (i : F8) : Option GoRect :=
  if i.disposed then none else some i.boundsRect

/-- Embeds `(*Image).SubImage` (src/unnamed/part_000:442-469): `nil` when disposed;
otherwise a handle sharing the mipmap whose stored bounds are
`r.Intersect(i.Bounds())`, with the explicit `ZR` normalization of the
source. -/
def F8.subImage (i : F8) (r : GoRect) : Option F8 :=
  if i.disposed then none
  else
    let r' := r.inter i.boundsRect
    some { w := i.w, h := i.h, disposed := i.disposed,
           sub := some (if r'.emptyR then GoRect.zr else r') }

/-! ## Theorems -/

/-! ### C8: SubImage bounds -/

theorem GoRect.inter_eq_zr_of_empty (r s : GoRect) :
    (GoRect.inter r s).emptyR = true → GoRect.inter r s = GoRect.zr := by
  intro hempty
  unfold GoRect.inter at hempty ⊢
  by_cases h : (GoRect.emptyR ⟨max r.x0 s.x0, max r.y0 s.y0, min r.x1 s.x1, min r.y1 s.y1⟩) = true
  · simp only [h, if_true]
  · rw [if_neg h] at hempty
    exact absurd hempty h

theorem GoRect.ite_empty_norm (r s : GoRect) :
    (if (GoRect.inter r s).emptyR then GoRect.zr else GoRect.inter r s) = GoRect.inter r s := by
  by_cases h : (GoRect.inter r s).emptyR = true
  · rw [if_pos h, GoRect.inter_eq_zr_of_empty r s h]
  · rw [if_neg (by simpa using h)]

/-- C8: for a non-disposed image `p` (root or sub-image), `SubImage(r)`
returns a handle sharing `p`'s mipmap (same root size, same disposal) whose
stored bounds — what its `Bounds()` reports — equal `r ∩ p.Bounds()`; when
that intersection is empty it is the zero rectangle `ZR`. -/
theorem c8_subImage_bounds (i : F8) (r : GoRect) (hd : i.disposed = false) :
    ∃ j, i.subImage r = some j ∧
      j.boundsB = some (GoRect.inter r i.boundsRect) ∧
      j.w = i.w ∧ j.h = i.h ∧
      ((GoRect.inter r i.boundsRect).emptyR = true →
        GoRect.inter r i.boundsRect = GoRect.zr) := by
  refine ⟨⟨i.w, i.h, some (GoRect.inter r i.boundsRect), false⟩, ?_, ?_, rfl, rfl, ?_⟩
  · unfold F8.subImage
    rw [if_neg (by simp [hd])]
    simp [hd, GoRect.ite_empty_norm]
  · unfold F8.boundsB F8.boundsRect
    simp
  · exact GoRect.inter_eq_zr_of_empty r i.boundsRect

/-- Witness for C8 at a concrete image and rectangle. -/
theorem c8_subImage_bounds_witness :
    ∃ j, F8.subImage ⟨4, 4, none, false⟩ ⟨1, 1, 3, 3⟩ = some j ∧
      j.boundsB = some (GoRect.inter ⟨1, 1, 3, 3⟩ (F8.boundsRect ⟨4, 4, none, false⟩)) ∧
      j.w = 4 ∧ j.h = 4 ∧
      ((GoRect.inter ⟨1, 1, 3, 3⟩ (F8.boundsRect ⟨4, 4, none, false⟩)).emptyR = true →
        GoRect.inter ⟨1, 1, 3, 3⟩ (F8.boundsRect ⟨4, 4, none, false⟩) = GoRect.zr) :=
  c8_subImage_bounds ⟨4, 4, none, false⟩ ⟨1, 1, 3, 3⟩ rfl

/-! ### C6: the façade DrawTriangles index checks -/

/-- C6: a façade `DrawTriangles(vertices, indices, img, options)` call on
a non-disposed, non-sub-image target (with coherent pending buffers) panics
when `len(indices) % 3 != 0`; passes that check and panics when
`len(indices) > MaxIndicesNum`; and when both checks pass the draw proceeds. -/
theorem c6_drawTriangles_index_checks (i img : F6) (n maxI : Nat)
    (hd : i.disposed = false) (hs : i.subImg = false)
    (hpi : ∀ l, i.pendingLen = some l → l = 4 * (i.w * i.h))
    (hpimg : (resolve6 img).isSome = true) :
    (n % 3 ≠ 0 →
      fDrawTriangles i img n maxI = .panicked "ebiten: len(indices) % 3 must be 0") ∧
    (n % 3 = 0 → maxI < n →
      fDrawTriangles i img n maxI = .panicked "ebiten: len(indices) must be <= MaxIndicesNum") ∧
    (n % 3 = 0 → n ≤ maxI → fDrawTriangles i img n maxI = .drew) := by
  have hri : (resolve6 i).isSome = true := by
    unfold resolve6
    cases hp : i.pendingLen with
    | none => rfl
    | some l => simp [hd, hs, hpi l hp]
  obtain ⟨v, hv⟩ := Option.isSome_iff_exists.mp hpimg
  obtain ⟨vi, hvi⟩ := Option.isSome_iff_exists.mp hri
  unfold fDrawTriangles
  rw [if_neg (by simp [hd]), if_neg (by simp [hs]), hv, hvi]
  exact ⟨fun h3 => by rw [if_pos h3],
    fun h3 hgt => by rw [if_neg (by simpa using h3), if_pos hgt],
    fun h3 hle => by rw [if_neg (by simpa using h3), if_neg (by simpa using Nat.not_lt.mpr hle)]⟩

/-- Witness for C6 at concrete images and index counts. -/
theorem c6_drawTriangles_index_checks_witness :
    (4 % 3 ≠ 0 →
      fDrawTriangles ⟨false, false, none, 2, 2⟩ ⟨false, false, none, 2, 2⟩ 4 65535 =
        .panicked "ebiten: len(indices) % 3 must be 0") ∧
    (4 % 3 = 0 → 65535 < 4 →
      fDrawTriangles ⟨false, false, none, 2, 2⟩ ⟨false, false, none, 2, 2⟩ 4 65535 =
        .panicked "ebiten: len(indices) must be <= MaxIndicesNum") ∧
    (4 % 3 = 0 → 4 ≤ 65535 →
      fDrawTriangles ⟨false, false, none, 2, 2⟩ ⟨false, false, none, 2, 2⟩ 4 65535 = .drew) :=
  c6_drawTriangles_index_checks ⟨false, false, none, 2, 2⟩ ⟨false, false, none, 2, 2⟩ 4 65535
    rfl rfl (fun l h => by cases h) (by decide)

/-! ### C10: ReplacePixels does not demote a shared image -/

/-- C10: on a shared image (one holding an atlas node), `ReplacePixels`
with a well-sized buffer only issues the pixel upload into the node's region
of the atlas restorable: the resulting state differs from the original in the
issued-operation log alone, so the image is still shared with the same node,
backend and `nonUpdatedCount`, and the promotion candidate set is unchanged. -/
theorem c10_replacePixels_keeps_shared (st : ShState) (i bid : Nat)
    (rec : ImgRec) (b : SBackend) (nd : PRect)
    (hi : lookupA st.imgs i = some rec) (hd : rec.disposed = false)
    (hb : rec.backend = some bid) (hn : rec.node = some nd)
    (hbk : lookupA st.backends bid = some b) :
    replacePixels st i (some (4 * nd.w * nd.h)) =
      .ok { st with
            log := .replacePix b.rest nd.x nd.y nd.w nd.h (some (4 * nd.w * nd.h)) :: st.log }
      := by
  simp only [replacePixels, replacePixelsBody, regionOf, hi, hd, hb, hn, hbk,
    Bool.false_eq_true, if_false, if_pos rfl, if_true]

/-- Witness for C10: a concrete state with image 0 shared in backend 0. -/
theorem c10_replacePixels_keeps_shared_witness :
    replacePixels
      ⟨1, 1, 1, [(0, (8, 8))], [(0, ⟨0, some (Page.newPage 8 8)⟩)],
        [(0, ⟨2, 2, false, some 0, some ⟨0, 0, 2, 2⟩, 3, false⟩)],
        [0], [0], 8, 8, []⟩ 0 (some (4 * 2 * 2)) =
      .ok ⟨1, 1, 1, [(0, (8, 8))], [(0, ⟨0, some (Page.newPage 8 8)⟩)],
        [(0, ⟨2, 2, false, some 0, some ⟨0, 0, 2, 2⟩, 3, false⟩)],
        [0], [0], 8, 8, [.replacePix 0 0 0 2 2 (some (4 * 2 * 2))]⟩ :=
  c10_replacePixels_keeps_shared _ 0 0 ⟨2, 2, false, some 0, some ⟨0, 0, 2, 2⟩, 3, false⟩
    ⟨0, some (Page.newPage 8 8)⟩ ⟨0, 0, 2, 2⟩ (by decide) rfl rfl rfl (by decide)

/-! ### C5: the façade NewImage performs no size validation -/

/-- C5 (code bug): the façade `NewImage` (src/unnamed/part_000:673-681)
returns normally for *every* width and height — including `w < 1`, `h < 1`
and sizes above `MaxImageSize` — because `shareable.NewImage` is lazy and no
check exists on the construction path, contradicting the claim and the
function's own doc comment ("If width or height is less than 1 or more than
device-dependent maximum size, NewImage panics"). The fresh image reads as
transparent zeros. -/
theorem c5_newImage_never_panics (st : ShState) (w h : Nat) :
    ∃ st', facadeNewImage st w h = .ok (st.nextImg, st') ∧
      atImg st' st.nextImg 0 0 = .ok (some (0, 0, 0, 0)) := by
  refine ⟨(shNewImage st w h).2, rfl, ?_⟩
  unfold atImg shNewImage
  rw [lookupA_setA_same]

/-! ### C4: the TryAlloc extension planner -/

theorem Page.extendN_cons (p q0 : Page) (hp : p.extend = some q0) (k : Nat) :
    p.extendN (k + 1) = q0.extendN k := by
  show (match p.extend with | none => none | some q => q.extendN k) = _
  rw [hp]

theorem Page.extendN_cons_none (p : Page) (hp : p.extend = none) (k : Nat) :
    p.extendN (k + 1) = none := by
  show (match p.extend with | none => none | some q => q.extendN k) = _
  rw [hp]

theorem Page.extendN_size (p : Page) (k : Nat) (q : Page)
    (h : p.extendN k = some q) : q.size = 2 ^ k * p.size ∧ q.maxSize = p.maxSize := by
  induction k generalizing p with
  | zero =>
    cases h
    simp [Page.extendN]
  | succ k ih =>
    cases hp : p.extend with
    | none => rw [Page.extendN_cons_none p hp] at h; cases h
    | some q0 =>
      rw [Page.extendN_cons p q0 hp] at h
      obtain ⟨h1, h2⟩ := ih q0 h
      unfold Page.extend at hp
      by_cases hlt : p.size < p.maxSize
      · rw [if_pos hlt] at hp
        cases hp
        refine ⟨?_, h2⟩
        rw [h1]
        ring
      · rw [if_neg hlt] at hp
        cases hp

theorem Page.extendN_succ_right (p : Page) (k : Nat) :
    p.extendN (k + 1) = (p.extendN k).bind (fun q' => q'.extendN 1) := by
  induction k generalizing p with
  | zero => cases hp : p.extend <;> simp [Page.extendN, hp]
  | succ k ih =>
    cases hp : p.extend with
    | none => simp [Page.extendN_cons_none p hp]
    | some q0 => simp [Page.extendN_cons p q0 hp, ih q0]

theorem Page.extendN_bound (p : Page) (hs : 1 ≤ p.size) (k : Nat) (q : Page)
    (h : p.extendN k = some q) : k ≤ p.maxSize := by
  cases k with
  | zero => exact Nat.zero_le _
  | succ k =>
    -- the k-step prefix exists and could still be extended
    rw [Page.extendN_succ_right] at h
    cases hk : p.extendN k with
    | none => rw [hk] at h; cases h
    | some q' =>
      rw [hk] at h
      simp only [Option.some_bind] at h
      cases hq' : q'.extend with
      | none => rw [Page.extendN_cons_none q' hq'] at h; cases h
      | some q'' =>
        have hlt : q'.size < q'.maxSize := by
          unfold Page.extend at hq'
          by_cases hc : q'.size < q'.maxSize
          · exact hc
          · rw [if_neg hc] at hq'; cases hq'
        obtain ⟨hsz, hmx⟩ := Page.extendN_size p k q' hk
        have h2k : k + 1 ≤ 2 ^ k := Nat.succ_le_of_lt (Nat.lt_two_pow k)
        calc k + 1 ≤ 2 ^ k := h2k
          _ ≤ 2 ^ k * p.size := Nat.le_mul_of_pos_right _ hs
          _ = q'.size := hsz.symm
          _ ≤ p.maxSize := by rw [← hmx]; exact Nat.le_of_lt hlt

theorem Page.commitExtend_eq (p : Page) (n : Nat) (q : Page)
    (h : p.extendN n = some q) : p.commitExtend n = q := by
  induction n generalizing p with
  | zero => cases h; rfl
  | succ n ih =>
    cases hp : p.extend with
    | none => rw [Page.extendN_cons_none p hp] at h; cases h
    | some q0 =>
      rw [Page.extendN_cons p q0 hp] at h
      show ((p.extend).getD p).commitExtend n = q
      rw [hp]
      exact ih q0 h

theorem tryAllocLoop_some (w h : Nat) (fuel : Nat) :
    ∀ (p : Page) (n m : Nat), tryAllocLoop w h fuel p n = some m →
      n < m ∧
      ∃ q, p.extendN (m - n) = some q ∧ (q.alloc w h).isSome = true ∧
        ∀ j, 1 ≤ j → j < m - n → ∀ q', p.extendN j = some q' → q'.alloc w h = none := by
  induction fuel with
  | zero => intro p n m h0; simp [tryAllocLoop] at h0
  | succ fuel ih =>
    intro p n m hl
    unfold tryAllocLoop at hl
    cases hp : p.extend with
    | none =>
      simp only [hp] at hl
      exact Option.noConfusion hl
    | some q0 =>
      simp only [hp] at hl
      cases ha : q0.alloc w h with
      | some r =>
        simp only [ha] at hl
        cases hl
        have h1 : n + 1 - n = 1 := by omega
        refine ⟨Nat.lt_succ_self n, q0, ?_, by simp [ha], ?_⟩
        · rw [h1, Page.extendN_cons p q0 hp]
          rfl
        · intro j hj1 hj2 q' hq'
          rw [h1] at hj2
          omega
      | none =>
        simp only [ha] at hl
        obtain ⟨hlt, q, hq, hqs, hmin⟩ := ih q0 (n + 1) m hl
        have hmn : m - n = (m - (n + 1)) + 1 := by omega
        refine ⟨by omega, q, ?_, hqs, ?_⟩
        · rw [hmn, Page.extendN_cons p q0 hp]
          exact hq
        · intro j hj1 hj2 q' hq'
          cases j with
          | zero => omega
          | succ j =>
            rw [Page.extendN_cons p q0 hp] at hq'
            cases j with
            | zero =>
              cases hq'
              exact ha
            | succ j' =>
              exact hmin (j' + 1) (by omega) (by omega) q' hq'

theorem tryAllocLoop_none (w h : Nat) (fuel : Nat) :
    ∀ (p : Page) (n : Nat),
      (∀ k q, p.extendN k = some q → k < fuel) →
      tryAllocLoop w h fuel p n = none →
      ∀ k q, 1 ≤ k → p.extendN k = some q → q.alloc w h = none := by
  induction fuel with
  | zero =>
    intro p n hbound _ k q hk hq
    exact absurd (hbound 0 p rfl) (by omega)
  | succ fuel ih =>
    intro p n hbound hl k q hk hq
    unfold tryAllocLoop at hl
    cases hp : p.extend with
    | none =>
      obtain ⟨k', rfl⟩ : ∃ k', k = k' + 1 := ⟨k - 1, by omega⟩
      rw [Page.extendN_cons_none p hp] at hq
      cases hq
    | some q0 =>
      simp only [hp] at hl
      cases ha : q0.alloc w h with
      | some r =>
        simp only [ha] at hl
        exact Option.noConfusion hl
      | none =>
        simp only [ha] at hl
        obtain ⟨k', rfl⟩ : ∃ k', k = k' + 1 := ⟨k - 1, by omega⟩
        rw [Page.extendN_cons p q0 hp] at hq
        cases k' with
        | zero =>
          cases hq
          exact ha
        | succ k'' =>
          refine ih q0 (n + 1) (fun k q hkq => ?_) hl (k'' + 1) q (by omega) hq
          have := hbound (k + 1) q (by rw [Page.extendN_cons p q0 hp]; exact hkq)
          omega

/-- C4: for a backend page and a request `(w, h)`: `TryAlloc` returns a
direct allocation unchanged when one exists; otherwise, when it succeeds with
`n` committed extensions, the `n`-fold extension of the live page allocates
`(w, h)` successfully, no smaller number of extensions would have sufficed,
and the returned page is that allocation's result; when it fails, no number
of extensions (the chain stops when `size` reaches `maxSize`) would allow the
allocation, and at the state level the live backend is left unchanged
(`.ok none` with no new state). On a committed extension the state-level
wrapper also replaces the backing restorable by a fresh one of the new page
size. -/
theorem c4_tryAlloc_plans_minimal_extensions (p : Page) (w h : Nat) (hs : 1 ≤ p.size) :
    (∀ r p', p.alloc w h = some (r, p') → pageTryAlloc p w h = some (r, p', 0)) ∧
    (∀ r p' n, pageTryAlloc p w h = some (r, p', n) →
      ∃ q, p.extendN n = some q ∧ q.alloc w h = some (r, p') ∧
        ∀ m q', m < n → p.extendN m = some q' → q'.alloc w h = none) ∧
    (pageTryAlloc p w h = none →
      ∀ k q, p.extendN k = some q → q.alloc w h = none) ∧
    (∀ (st : ShState) (bid : Nat) (b : SBackend),
      lookupA st.backends bid = some b → b.page = some p →
      (∀ r p' n, pageTryAlloc p w h = some (r, p', n + 1) →
        ∃ st', stTryAlloc st bid w h = .ok (some (r, st')) ∧
          lookupA st'.backends bid = some ⟨st.nextRest, some p'⟩ ∧
          lookupA st'.rests st.nextRest = some (p'.size, p'.size)) ∧
      (pageTryAlloc p w h = none → stTryAlloc st bid w h = .ok none)) := by
  have hbound : ∀ k q, p.extendN k = some q → k < p.maxSize + 1 := by
    intro k q hk
    exact Nat.lt_succ_of_le (Page.extendN_bound p hs k q hk)
  refine ⟨?_, ?_, ?_, ?_⟩
  · intro r p' hdirect
    unfold pageTryAlloc
    simp only [hdirect]
  · intro r p' n hres
    unfold pageTryAlloc at hres
    cases hdirect : p.alloc w h with
    | some rp =>
      simp only [hdirect] at hres
      obtain ⟨rfl, rfl, rfl⟩ : rp.1 = r ∧ rp.2 = p' ∧ 0 = n := by
        cases rp
        cases hres
        exact ⟨rfl, rfl, rfl⟩
      exact ⟨p, rfl, hdirect, fun m q' hm _ => by omega⟩
    | none =>
      simp only [hdirect] at hres
      cases hloop : tryAllocLoop w h (p.maxSize + 1) p 0 with
      | none =>
        simp only [hloop] at hres
        exact Option.noConfusion hres
      | some n0 =>
        simp only [hloop] at hres
        obtain ⟨hpos, q, hq, hqs, hmin⟩ := tryAllocLoop_some w h (p.maxSize + 1) p 0 n0 hloop
        rw [Nat.sub_zero] at hq hmin
        rw [Page.commitExtend_eq p n0 q hq] at hres
        cases hfin : q.alloc w h with
        | none =>
          simp only [hfin] at hres
          exact Option.noConfusion hres
        | some rq =>
          simp only [hfin] at hres
          obtain ⟨rfl, rfl, rfl⟩ : rq.1 = r ∧ rq.2 = p' ∧ n0 = n := by
            cases rq
            cases hres
            exact ⟨rfl, rfl, rfl⟩
          refine ⟨q, hq, hfin, ?_⟩
          intro m q' hm hq'
          cases m with
          | zero =>
            cases hq'
            exact hdirect
          | succ m' => exact hmin (m' + 1) (by omega) hm q' hq'
  · intro hres k q hk
    unfold pageTryAlloc at hres
    cases hdirect : p.alloc w h with
    | some rp =>
      simp only [hdirect] at hres
      exact Option.noConfusion hres
    | none =>
      simp only [hdirect] at hres
      cases hloop : tryAllocLoop w h (p.maxSize + 1) p 0 with
      | some n0 =>
        simp only [hloop] at hres
        obtain ⟨hpos, q0, hq0, hqs, _⟩ := tryAllocLoop_some w h (p.maxSize + 1) p 0 n0 hloop
        rw [Nat.sub_zero] at hq0
        rw [Page.commitExtend_eq p n0 q0 hq0] at hres
        obtain ⟨v, hv⟩ := Option.isSome_iff_exists.mp hqs
        cases v
        simp only [hv] at hres
        exact Option.noConfusion hres
      | none =>
        cases k with
        | zero =>
          cases hk
          exact hdirect
        | succ k' =>
          exact tryAllocLoop_none w h (p.maxSize + 1) p 0 hbound hloop (k' + 1) q
            (by omega) hk
  · intro st bid b hb hpg
    constructor
    · intro r p' n hres
      refine ⟨⟨st.nextRest + 1, st.nextBackend, st.nextImg,
          setA (eraseA st.rests b.rest) st.nextRest (p'.size, p'.size),
          setA st.backends bid ⟨st.nextRest, some p'⟩,
          st.imgs, st.theBackends, st.toShare, st.minSize, st.maxSize, st.log⟩, ?_, ?_, ?_⟩
      · unfold stTryAlloc
        simp only [hb, hpg, hres]
      · exact lookupA_setA_same _ _ _
      · exact lookupA_setA_same _ _ _
    · intro hres
      unfold stTryAlloc
      simp only [hb, hpg, hres]

/-- Witness for C4: a 1×1 page with `maxSize = 2`, requesting 1×1. -/
theorem c4_tryAlloc_plans_minimal_extensions_witness :
    (∀ r p', (Page.newPage 1 2).alloc 1 1 = some (r, p') →
      pageTryAlloc (Page.newPage 1 2) 1 1 = some (r, p', 0)) ∧
    (∀ r p' n, pageTryAlloc (Page.newPage 1 2) 1 1 = some (r, p', n) →
      ∃ q, (Page.newPage 1 2).extendN n = some q ∧ q.alloc 1 1 = some (r, p') ∧
        ∀ m q', m < n → (Page.newPage 1 2).extendN m = some q' → q'.alloc 1 1 = none) ∧
    (pageTryAlloc (Page.newPage 1 2) 1 1 = none →
      ∀ k q, (Page.newPage 1 2).extendN k = some q → q.alloc 1 1 = none) ∧
    (∀ (st : ShState) (bid : Nat) (b : SBackend),
      lookupA st.backends bid = some b → b.page = some (Page.newPage 1 2) →
      (∀ r p' n, pageTryAlloc (Page.newPage 1 2) 1 1 = some (r, p', n + 1) →
        ∃ st', stTryAlloc st bid 1 1 = .ok (some (r, st')) ∧
          lookupA st'.backends bid = some ⟨st.nextRest, some p'⟩ ∧
          lookupA st'.rests st.nextRest = some (p'.size, p'.size)) ∧
      (pageTryAlloc (Page.newPage 1 2) 1 1 = none → stTryAlloc st bid 1 1 = .ok none)) :=
  c4_tryAlloc_plans_minimal_extensions (Page.newPage 1 2) 1 1 (by decide)

/-! ### C7: Set followed by At -/

theorem getD_set_chain (l : List Nat) (idx : Nat) (a b c d : Nat)
    (hlen : idx + 3 < l.length) :
    ((((l.set idx a).set (idx + 1) b).set (idx + 2) c).set (idx + 3) d).getD idx 0 = a ∧
    ((((l.set idx a).set (idx + 1) b).set (idx + 2) c).set (idx + 3) d).getD (idx + 1) 0 = b ∧
    ((((l.set idx a).set (idx + 1) b).set (idx + 2) c).set (idx + 3) d).getD (idx + 2) 0 = c ∧
    ((((l.set idx a).set (idx + 1) b).set (idx + 2) c).set (idx + 3) d).getD (idx + 3) 0 = d := by
  have l0 : idx < l.length := by omega
  have l1 : idx + 1 < l.length := by omega
  have l2 : idx + 2 < l.length := by omega
  refine ⟨?_, ?_, ?_, ?_⟩ <;>
    simp [List.getD_eq_getElem?_getD, List.getElem?_set_ne, List.getElem?_set_self,
      List.length_set, l0, l1, l2, hlen, Nat.ne_of_lt, Nat.ne_of_gt,
      show idx + 3 ≠ idx by omega, show idx + 3 ≠ idx + 1 by omega,
      show idx + 3 ≠ idx + 2 by omega, show idx + 2 ≠ idx by omega,
      show idx + 2 ≠ idx + 1 by omega, show idx + 1 ≠ idx by omega]

/-- C7: on a non-disposed image (root, or sub-image with its bounds inside
the root) with the main loop running and an in-bounds coordinate `(x, y)`:
`Set(x, y, c)` succeeds and an immediate `At(x, y)`, with no draw in between,
returns the 8-bit premultiplied conversion `byte(r>>8), byte(g>>8),
byte(b>>8), byte(a>>8)` of the 16-bit premultiplied color `(cr, cg, cb, ca)`.
The backing pixel store and any pre-existing pending buffer are well-sized. -/
theorem c7_set_then_at (rt : FRoot) (sub : Option NRect) (x y : Nat)
    (cr cg cb ca : Nat)
    (hd : rt.disposed = false)
    (hlen : rt.pix.length = 4 * (rt.w * rt.h))
    (hpend : ∀ p, rt.pending = some p → p.length = 4 * (rt.w * rt.h))
    (hin : match sub with
           | none => x < rt.w ∧ y < rt.h
           | some br => br.containsPt x y = true ∧ br.x1 ≤ rt.w ∧ br.y1 ≤ rt.h) :
    ∃ rt', fSet true rt sub x y cr cg cb ca = some rt' ∧
      fAt true rt' sub x y =
        some ((cr >>> 8) % 256, (cg >>> 8) % 256, (cb >>> 8) % 256, (ca >>> 8) % 256) := by
  have hxy : x < rt.w ∧ y < rt.h := by
    cases sub with
    | none => exact hin
    | some br =>
      obtain ⟨hc, hbx, hby⟩ := hin
      simp only [NRect.containsPt, Bool.and_eq_true, decide_eq_true_eq] at hc
      exact ⟨by omega, by omega⟩
  obtain ⟨hxw, hyh⟩ := hxy
  have hsubok : subMiss sub x y = false := by
    cases sub with
    | none => rfl
    | some br =>
      obtain ⟨hc, _, _⟩ := hin
      simp [subMiss, hc]
  have hplen : (pendingOrReadback rt).length = 4 * (rt.w * rt.h) := by
    unfold pendingOrReadback
    cases hp : rt.pending with
    | none => simp [readbackPixels, List.length_map, List.length_range]
    | some p => exact hpend p hp
  have hcell : x + y * rt.w < rt.w * rt.h := by
    calc x + y * rt.w < rt.w + y * rt.w := by omega
      _ = (y + 1) * rt.w := by ring
      _ ≤ rt.h * rt.w := Nat.mul_le_mul_right _ (by omega)
      _ = rt.w * rt.h := Nat.mul_comm _ _
  have hidx : 4 * (x + y * rt.w) + 3 < (pendingOrReadback rt).length := by
    rw [hplen]; omega
  refine ⟨⟨rt.w, rt.h, rt.pix,
      some (((((pendingOrReadback rt).set
        (4 * (x + y * rt.w)) ((cr >>> 8) % 256)).set
        (4 * (x + y * rt.w) + 1) ((cg >>> 8) % 256)).set
        (4 * (x + y * rt.w) + 2) ((cb >>> 8) % 256)).set
        (4 * (x + y * rt.w) + 3) ((ca >>> 8) % 256)), rt.disposed⟩, ?_, ?_⟩
  · unfold fSet
    rw [if_neg (by simp), if_neg (by simp [hd]), if_neg (by simp [hsubok])]
  · obtain ⟨g0, g1, g2, g3⟩ := getD_set_chain (pendingOrReadback rt)
      (4 * (x + y * rt.w)) ((cr >>> 8) % 256) ((cg >>> 8) % 256) ((cb >>> 8) % 256)
      ((ca >>> 8) % 256) hidx
    have hplen' :
        (((((pendingOrReadback rt).set
          (4 * (x + y * rt.w)) ((cr >>> 8) % 256)).set
          (4 * (x + y * rt.w) + 1) ((cg >>> 8) % 256)).set
          (4 * (x + y * rt.w) + 2) ((cb >>> 8) % 256)).set
          (4 * (x + y * rt.w) + 3) ((ca >>> 8) % 256)).length = 4 * (rt.w * rt.h) := by
      simp only [List.length_set]
      exact hplen
    have hxw' : ¬ rt.w ≤ x := Nat.not_le.mpr hxw
    have hyh' : ¬ rt.h ≤ y := Nat.not_le.mpr hyh
    simp [fAt, shAtPix, restAt, hd, hsubok, hplen', hxw', hyh', g0, g1, g2, g3]
    refine ⟨?_, ?_, ?_, ?_⟩ <;>
      · rw [List.getElem?_set_self (by simp only [List.length_set, hplen]; omega)]
        rfl

/-- Witness for C7 on a concrete 2×2 root image with white written at (1, 0). -/
theorem c7_set_then_at_witness :
    ∃ rt', fSet true ⟨2, 2, List.replicate 16 0, none, false⟩ none 1 0
        0xffff 0xffff 0xffff 0xffff = some rt' ∧
      fAt true rt' none 1 0 =
        some ((0xffff >>> 8) % 256, (0xffff >>> 8) % 256, (0xffff >>> 8) % 256,
          (0xffff >>> 8) % 256) :=
  c7_set_then_at ⟨2, 2, List.replicate 16 0, none, false⟩ none 1 0
    0xffff 0xffff 0xffff 0xffff rfl (by decide) (fun p hp => by cases hp) (by decide)

/-! ### C2 / C9: demotion by ensureNotShared and the DrawTriangles identity check -/

theorem not_mem_filter_ne (l : List Nat) (i : Nat) :
    i ∉ l.filter (fun x => !(x == i)) := by
  intro hmem
  have := List.of_mem_filter hmem
  simp at this

/-- Computation of `ensureNotShared` on a shared image whose atlas page stays
non-empty after freeing its node: the node is freed, the region cleared, and
the image moves to a fresh private backend filled by a copy draw. -/
theorem ensureNotShared_shared_nonempty (st : ShState) (i bid : Nat)
    (rec : ImgRec) (b : SBackend) (pg : Page) (nd : PRect)
    (hi : lookupA st.imgs i = some rec) (hdisp : rec.disposed = false)
    (hb : rec.backend = some bid) (hn : rec.node = some nd)
    (hbk : lookupA st.backends bid = some b) (hpg : b.page = some pg)
    (hemp : (pg.free nd).isEmpty = false) :
    ensureNotShared st i = .ok
      ⟨st.nextRest + 1, st.nextBackend + 1, st.nextImg,
       setA st.rests st.nextRest (nd.w, nd.h),
       setA (setA st.backends bid ⟨b.rest, some (pg.free nd)⟩) st.nextBackend
         ⟨st.nextRest, none⟩,
       setA (setA st.imgs i
           ⟨rec.width, rec.height, false, none, none, rec.nonUpdatedCount, rec.neverShared⟩) i
         ⟨rec.width, rec.height, false, some st.nextBackend, none, rec.nonUpdatedCount,
           rec.neverShared⟩,
       st.theBackends, st.toShare, st.minSize, st.maxSize,
       .clearPix b.rest nd.x nd.y nd.w nd.h ::
         .drawTri st.nextRest b.rest .copy :: st.log⟩ := by
  unfold ensureNotShared regionOf dispose
  simp only [hi, hb, hn, hbk, hpg, hdisp, hemp, Bool.or_false, Bool.false_eq_true, if_false,
    eq_self_iff_true, if_true, lookupA_setA_same]

/-- Computation of `ensureNotShared` on a shared image whose atlas page
becomes empty after freeing its node: the whole backend is disposed and
removed from `theBackends`, and the image moves to a fresh private backend. -/
theorem ensureNotShared_shared_empty (st : ShState) (i bid : Nat)
    (rec : ImgRec) (b : SBackend) (pg : Page) (nd : PRect)
    (hi : lookupA st.imgs i = some rec) (hdisp : rec.disposed = false)
    (hb : rec.backend = some bid) (hn : rec.node = some nd)
    (hbk : lookupA st.backends bid = some b) (hpg : b.page = some pg)
    (hemp : (pg.free nd).isEmpty = true) (hmem : bid ∈ st.theBackends) :
    ensureNotShared st i = .ok
      ⟨st.nextRest + 1, st.nextBackend + 1, st.nextImg,
       eraseA (setA st.rests st.nextRest (nd.w, nd.h)) b.rest,
       setA (eraseA st.backends bid) st.nextBackend ⟨st.nextRest, none⟩,
       setA (setA st.imgs i
           ⟨rec.width, rec.height, false, none, none, rec.nonUpdatedCount, rec.neverShared⟩) i
         ⟨rec.width, rec.height, false, some st.nextBackend, none, rec.nonUpdatedCount,
           rec.neverShared⟩,
       st.theBackends.filter (fun x => !(x == bid)), st.toShare, st.minSize, st.maxSize,
       .drawTri st.nextRest b.rest .copy :: st.log⟩ := by
  unfold ensureNotShared regionOf dispose
  simp only [hi, hb, hn, hbk, hpg, hdisp, hemp, Bool.or_false, Bool.false_eq_true, if_false,
    eq_self_iff_true, if_true, lookupA_setA_same, hmem, Bool.true_eq_false]

/-- The tail of `shDrawTriangles` after a successful `ensureNotShared` whose
two restorables differ: the draw is logged, the target's counter resets, and
the target leaves the candidate set. -/
theorem shDrawTriangles_after_ensure (st st₂ : ShState) (i img : Nat) (m : CompMode)
    (rec recs tgt₂ src₂ : ImgRec) (tb sb₂ : Nat) (tbk sbk : SBackend)
    (hi : lookupA st.imgs i = some rec) (hdisp : rec.disposed = false)
    (hs : lookupA st.imgs img = some recs) (hsd : recs.disposed = false)
    (hsb : recs.backend = some sb₂)
    (hens : ensureNotShared st i = .ok st₂)
    (htgt : lookupA st₂.imgs i = some tgt₂) (htb : tgt₂.backend = some tb)
    (hsrc : lookupA st₂.imgs img = some src₂) (hsb₂ : src₂.backend = some sb₂)
    (htbk : lookupA st₂.backends tb = some tbk)
    (hsbk : lookupA st₂.backends sb₂ = some sbk)
    (hdiff : tbk.rest ≠ sbk.rest) (hne : i ≠ img) :
    ∃ st', shDrawTriangles st i img m = .ok st' ∧
      st'.imgs = setA st₂.imgs i
        ⟨tgt₂.width, tgt₂.height, tgt₂.disposed, tgt₂.backend, tgt₂.node, 0, tgt₂.neverShared⟩ ∧
      st'.backends = st₂.backends ∧
      st'.rests = st₂.rests ∧
      st'.log = .drawTri tbk.rest sbk.rest m :: st₂.log ∧
      i ∉ st'.toShare := by
  unfold shDrawTriangles
  simp only [hi, hs, hsd, hdisp, hsb, Bool.false_eq_true, if_false, reduceCtorEq,
    hens, htgt, hsrc, htb, hsb₂, htbk, hsbk, if_neg hdiff]
  split
  · refine ⟨_, rfl, rfl, rfl, rfl, rfl, ?_⟩
    split
    · exact not_mem_filter_ne _ _
    · intro hmem
      rcases List.mem_append.mp hmem with hmem | hmem
      · exact not_mem_filter_ne _ _ hmem
      · simp at hmem
        exact hne hmem
  · exact ⟨_, rfl, rfl, rfl, rfl, rfl, not_mem_filter_ne _ _⟩

/-- C2: a `DrawTriangles` call whose target `i` is shared demotes it:
afterwards `i` is no longer shared — it owns a fresh private backend whose
restorable has the size of `i`'s old region, filled by a `CompositeModeCopy`
draw from the atlas restorable — its `nonUpdatedCount` is 0, and it is no
longer in the promotion candidate set. Freshness hypotheses say the new ids
do not collide with live ones, and a source sharing the target's atlas keeps
the page non-empty. -/
theorem c2_drawTriangles_demotes (st : ShState) (i img bid sbid : Nat)
    (rec recs : ImgRec) (b sb : SBackend) (pg : Page) (nd : PRect) (m : CompMode)
    (hi : lookupA st.imgs i = some rec) (hdisp : rec.disposed = false)
    (hb : rec.backend = some bid) (hn : rec.node = some nd)
    (hbk : lookupA st.backends bid = some b) (hpg : b.page = some pg)
    (hmem : bid ∈ st.theBackends)
    (hs : lookupA st.imgs img = some recs) (hsd : recs.disposed = false)
    (hsb : recs.backend = some sbid) (hsbk : lookupA st.backends sbid = some sb)
    (hne : i ≠ img)
    (hsbid_ne : sbid ≠ st.nextBackend)
    (hbrfresh : b.rest ≠ st.nextRest) (hsfresh : sb.rest ≠ st.nextRest)
    (hsame : sbid = bid → (pg.free nd).isEmpty = false) :
    ∃ st', shDrawTriangles st i img m = .ok st' ∧
      lookupA st'.imgs i =
        some ⟨rec.width, rec.height, false, some st.nextBackend, none, 0, rec.neverShared⟩ ∧
      (⟨rec.width, rec.height, false, some st.nextBackend, none, 0,
        rec.neverShared⟩ : ImgRec).isShared = false ∧
      lookupA st'.backends st.nextBackend = some ⟨st.nextRest, none⟩ ∧
      lookupA st'.rests st.nextRest = some (nd.w, nd.h) ∧
      i ∉ st'.toShare ∧
      DrawEvent.drawTri st.nextRest b.rest .copy ∈ st'.log := by
  have key : ∃ st₂, ensureNotShared st i = .ok st₂ ∧
      lookupA st₂.imgs i = some ⟨rec.width, rec.height, false, some st.nextBackend, none,
        rec.nonUpdatedCount, rec.neverShared⟩ ∧
      lookupA st₂.imgs img = some recs ∧
      lookupA st₂.backends st.nextBackend = some ⟨st.nextRest, none⟩ ∧
      (∃ sbk, lookupA st₂.backends sbid = some sbk ∧ sbk.rest ≠ st.nextRest) ∧
      lookupA st₂.rests st.nextRest = some (nd.w, nd.h) ∧
      DrawEvent.drawTri st.nextRest b.rest .copy ∈ st₂.log := by
    by_cases hemp : (pg.free nd).isEmpty = false
    · refine ⟨_, ensureNotShared_shared_nonempty st i bid rec b pg nd hi hdisp hb hn hbk hpg hemp,
        lookupA_setA_same _ _ _, ?_, lookupA_setA_same _ _ _, ?_,
        lookupA_setA_same _ _ _, ?_⟩
      · rw [lookupA_setA_ne _ _ hne, lookupA_setA_ne _ _ hne]
        exact hs
      · by_cases hsbeq : sbid = bid
        · subst hsbeq
          refine ⟨⟨b.rest, some (pg.free nd)⟩, ?_, hbrfresh⟩
          rw [lookupA_setA_ne _ _ (Ne.symm hsbid_ne)]
          exact lookupA_setA_same _ _ _
        · refine ⟨sb, ?_, hsfresh⟩
          rw [lookupA_setA_ne _ _ (Ne.symm hsbid_ne), lookupA_setA_ne _ _ (Ne.symm hsbeq)]
          exact hsbk
      · exact List.mem_cons_of_mem _ (List.mem_cons_self _ _)
    · have hemp' : (pg.free nd).isEmpty = true := by
        cases hE : (pg.free nd).isEmpty
        · exact absurd hE hemp
        · rfl
      refine ⟨_, ensureNotShared_shared_empty st i bid rec b pg nd hi hdisp hb hn hbk hpg
          hemp' hmem,
        lookupA_setA_same _ _ _, ?_, lookupA_setA_same _ _ _, ?_, ?_, ?_⟩
      · rw [lookupA_setA_ne _ _ hne, lookupA_setA_ne _ _ hne]
        exact hs
      · by_cases hsbeq : sbid = bid
        · exact absurd (hsame hsbeq) (by rw [hemp']; simp)
        · refine ⟨sb, ?_, hsfresh⟩
          rw [lookupA_setA_ne _ _ (Ne.symm hsbid_ne), lookupA_eraseA_ne _ (Ne.symm hsbeq)]
          exact hsbk
      · rw [lookupA_eraseA_ne _ hbrfresh]
        exact lookupA_setA_same _ _ _
      · exact List.mem_cons_self _ _
  obtain ⟨st₂, hens2, htgt, hsrc, htbk, ⟨sbk, hsbk2, hsbkne⟩, hrest2, hlog2⟩ := key
  obtain ⟨st', hrun, himgs', hback', hrests', hlog', hnotin⟩ :=
    shDrawTriangles_after_ensure st st₂ i img m rec recs
      ⟨rec.width, rec.height, false, some st.nextBackend, none, rec.nonUpdatedCount,
        rec.neverShared⟩ recs st.nextBackend sbid ⟨st.nextRest, none⟩ sbk
      hi hdisp hs hsd hsb hens2 htgt rfl hsrc hsb htbk hsbk2
      (fun hEq => hsbkne hEq.symm) hne
  refine ⟨st', hrun, ?_, rfl, ?_, ?_, hnotin, ?_⟩
  · rw [himgs']
    exact lookupA_setA_same _ _ _
  · rw [hback']
    exact htbk
  · rw [hrests']
    exact hrest2
  · rw [hlog']
    exact List.mem_cons_of_mem _ hlog2

/-- Witness for C2: two 2×4 images sharing one 4×4 atlas; image 0 (the
target) is demoted by a draw from image 1. -/
theorem c2_drawTriangles_demotes_witness :
    ∃ st', shDrawTriangles
      ⟨1, 1, 2, [(0, (4, 4))],
        [(0, ⟨0, some ⟨.split ⟨0, 0, 4, 4⟩ (.used ⟨0, 0, 2, 4⟩) (.used ⟨2, 0, 2, 4⟩), 4, 4⟩⟩)],
        [(0, ⟨2, 4, false, some 0, some ⟨0, 0, 2, 4⟩, 5, false⟩),
         (1, ⟨2, 4, false, some 0, some ⟨2, 0, 2, 4⟩, 0, false⟩)],
        [0], [0], 4, 4, []⟩ 0 1 .sourceOver = .ok st' ∧
      lookupA st'.imgs 0 = some ⟨2, 4, false, some 1, none, 0, false⟩ ∧
      (⟨2, 4, false, some 1, none, 0, false⟩ : ImgRec).isShared = false ∧
      lookupA st'.backends 1 = some ⟨1, none⟩ ∧
      lookupA st'.rests 1 = some (2, 4) ∧
      0 ∉ st'.toShare ∧
      DrawEvent.drawTri 1 0 .copy ∈ st'.log :=
  c2_drawTriangles_demotes
    ⟨1, 1, 2, [(0, (4, 4))],
      [(0, ⟨0, some ⟨.split ⟨0, 0, 4, 4⟩ (.used ⟨0, 0, 2, 4⟩) (.used ⟨2, 0, 2, 4⟩), 4, 4⟩⟩)],
      [(0, ⟨2, 4, false, some 0, some ⟨0, 0, 2, 4⟩, 5, false⟩),
       (1, ⟨2, 4, false, some 0, some ⟨2, 0, 2, 4⟩, 0, false⟩)],
      [0], [0], 4, 4, []⟩ 0 1 0 0
    ⟨2, 4, false, some 0, some ⟨0, 0, 2, 4⟩, 5, false⟩
    ⟨2, 4, false, some 0, some ⟨2, 0, 2, 4⟩, 0, false⟩
    ⟨0, some ⟨.split ⟨0, 0, 4, 4⟩ (.used ⟨0, 0, 2, 4⟩) (.used ⟨2, 0, 2, 4⟩), 4, 4⟩⟩
    ⟨0, some ⟨.split ⟨0, 0, 4, 4⟩ (.used ⟨0, 0, 2, 4⟩) (.used ⟨2, 0, 2, 4⟩), 4, 4⟩⟩
    ⟨.split ⟨0, 0, 4, 4⟩ (.used ⟨0, 0, 2, 4⟩) (.used ⟨2, 0, 2, 4⟩), 4, 4⟩
    ⟨0, 0, 2, 4⟩ .sourceOver
    (by decide) (by decide) (by decide) (by decide) (by decide) (by decide) (by decide)
    (by decide) (by decide) (by decide) (by decide) (by decide) (by decide) (by decide)
    (by decide) (by decide)

/-- C9: in `shareable.(*Image).DrawTriangles` the identity check on the
backing restorables runs after the target has been demoted by
`ensureNotShared`. First conjunct: drawing an allocated image into itself
(private, or shared with a well-formed atlas entry) always panics with the
source's message. Second conjunct: drawing between two *distinct* images that
merely share an atlas backend succeeds — the target was unshared first, so
the restorables compared are different. -/
theorem c9_drawTriangles_self_check :
    (∀ (st : ShState) (i bid : Nat) (rec : ImgRec) (b : SBackend) (m : CompMode),
      lookupA st.imgs i = some rec → rec.disposed = false → rec.backend = some bid →
      lookupA st.backends bid = some b →
      (rec.node = none ∨
        ∃ nd pg, rec.node = some nd ∧ b.page = some pg ∧ bid ∈ st.theBackends) →
      shDrawTriangles st i i m =
        .error "shareable: Image.DrawTriangles: img must be different from the receiver") ∧
    (∀ (st : ShState) (i j bid : Nat) (reci recj : ImgRec) (b : SBackend) (pg : Page)
      (ndi ndj : PRect) (m : CompMode),
      lookupA st.imgs i = some reci → reci.disposed = false → reci.backend = some bid →
      reci.node = some ndi →
      lookupA st.imgs j = some recj → recj.disposed = false → recj.backend = some bid →
      recj.node = some ndj →
      lookupA st.backends bid = some b → b.page = some pg →
      i ≠ j → bid ≠ st.nextBackend → b.rest ≠ st.nextRest →
      (pg.free ndi).isEmpty = false →
      ∃ st', shDrawTriangles st i j m = .ok st') := by
  constructor
  · intro st i bid rec b m hi hdisp hb hbk hshape
    rcases hshape with hn' | ⟨nd, pg, hn, hpg, hmem⟩
    · unfold shDrawTriangles ensureNotShared
      simp only [hi, hdisp, hb, hn', hbk, reduceCtorEq, Bool.false_eq_true, if_false,
        eq_self_iff_true, if_true]
    · by_cases hemp : (pg.free nd).isEmpty = false
      · have hens := ensureNotShared_shared_nonempty st i bid rec b pg nd hi hdisp hb hn
          hbk hpg hemp
        unfold shDrawTriangles
        simp only [hi, hdisp, hb, reduceCtorEq, Bool.false_eq_true, if_false, hens,
          lookupA_setA_same, eq_self_iff_true, if_true]
      · have hemp' : (pg.free nd).isEmpty = true := by
          cases hE : (pg.free nd).isEmpty
          · exact absurd hE hemp
          · rfl
        have hens := ensureNotShared_shared_empty st i bid rec b pg nd hi hdisp hb hn
          hbk hpg hemp' hmem
        unfold shDrawTriangles
        simp only [hi, hdisp, hb, reduceCtorEq, Bool.false_eq_true, if_false, hens,
          lookupA_setA_same, eq_self_iff_true, if_true]
  · intro st i j bid reci recj b pg ndi ndj m hi hdisp hb hni hj hjd hjb hnj hbk hpg
      hne hbid_ne hbrfresh hemp
    have hens := ensureNotShared_shared_nonempty st i bid reci b pg ndi hi hdisp hb hni
      hbk hpg hemp
    obtain ⟨st', hrun, _, _, _, _, _⟩ :=
      shDrawTriangles_after_ensure st _ i j m reci recj
        ⟨reci.width, reci.height, false, some st.nextBackend, none, reci.nonUpdatedCount,
          reci.neverShared⟩ recj st.nextBackend bid ⟨st.nextRest, none⟩
        ⟨b.rest, some (pg.free ndi)⟩
        hi hdisp hj hjd hjb hens (lookupA_setA_same _ _ _) rfl
        (by rw [lookupA_setA_ne _ _ hne, lookupA_setA_ne _ _ hne]; exact hj) hjb
        (lookupA_setA_same _ _ _)
        (by rw [lookupA_setA_ne _ _ (Ne.symm hbid_ne)]; exact lookupA_setA_same _ _ _)
        (fun hEq => hbrfresh hEq.symm) hne
    exact ⟨st', hrun⟩

/-- Witness for C9: a concrete self-draw panic on a private image, and a
concrete successful draw between two images sharing one atlas. -/
theorem c9_drawTriangles_self_check_witness :
    shDrawTriangles
      ⟨1, 1, 1, [(0, (2, 2))], [(0, ⟨0, none⟩)],
        [(0, ⟨2, 2, false, some 0, none, 0, false⟩)], [], [], 4, 4, []⟩ 0 0 .sourceOver =
      .error "shareable: Image.DrawTriangles: img must be different from the receiver" ∧
    ∃ st', shDrawTriangles
      ⟨1, 1, 2, [(0, (4, 4))],
        [(0, ⟨0, some ⟨.split ⟨0, 0, 4, 4⟩ (.used ⟨0, 0, 2, 4⟩) (.used ⟨2, 0, 2, 4⟩), 4, 4⟩⟩)],
        [(0, ⟨2, 4, false, some 0, some ⟨0, 0, 2, 4⟩, 5, false⟩),
         (1, ⟨2, 4, false, some 0, some ⟨2, 0, 2, 4⟩, 0, false⟩)],
        [0], [0], 4, 4, []⟩ 0 1 .sourceOver = .ok st' :=
  ⟨c9_drawTriangles_self_check.1
      ⟨1, 1, 1, [(0, (2, 2))], [(0, ⟨0, none⟩)],
        [(0, ⟨2, 2, false, some 0, none, 0, false⟩)], [], [], 4, 4, []⟩ 0 0
      ⟨2, 2, false, some 0, none, 0, false⟩ ⟨0, none⟩ .sourceOver
      (by decide) (by decide) (by decide) (by decide) (Or.inl (by decide)),
    c9_drawTriangles_self_check.2
      ⟨1, 1, 2, [(0, (4, 4))],
        [(0, ⟨0, some ⟨.split ⟨0, 0, 4, 4⟩ (.used ⟨0, 0, 2, 4⟩) (.used ⟨2, 0, 2, 4⟩), 4, 4⟩⟩)],
        [(0, ⟨2, 4, false, some 0, some ⟨0, 0, 2, 4⟩, 5, false⟩),
         (1, ⟨2, 4, false, some 0, some ⟨2, 0, 2, 4⟩, 0, false⟩)],
        [0], [0], 4, 4, []⟩ 0 1 0
      ⟨2, 4, false, some 0, some ⟨0, 0, 2, 4⟩, 5, false⟩
      ⟨2, 4, false, some 0, some ⟨2, 0, 2, 4⟩, 0, false⟩
      ⟨0, some ⟨.split ⟨0, 0, 4, 4⟩ (.used ⟨0, 0, 2, 4⟩) (.used ⟨2, 0, 2, 4⟩), 4, 4⟩⟩
      ⟨.split ⟨0, 0, 4, 4⟩ (.used ⟨0, 0, 2, 4⟩) (.used ⟨2, 0, 2, 4⟩), 4, 4⟩
      ⟨0, 0, 2, 4⟩ ⟨2, 0, 2, 4⟩ .sourceOver
      (by decide) (by decide) (by decide) (by decide) (by decide) (by decide) (by decide)
      (by decide) (by decide) (by decide) (by decide) (by decide) (by decide) (by decide)⟩

/-! ### C3: the restore order is a topological sort with priority images first -/

theorem existsMinBy (f : Nat → Nat) :
    ∀ (l : List Nat), l ≠ [] → ∃ m, m ∈ l ∧ ∀ x ∈ l, f m ≤ f x := by
  intro l
  induction l with
  | nil => intro h; exact absurd rfl h
  | cons a t ih =>
    intro _
    cases t with
    | nil =>
      refine ⟨a, List.mem_cons_self _ _, ?_⟩
      intro x hx
      rcases List.mem_cons.mp hx with rfl | hx
      · exact le_rfl
      · exact absurd hx (List.not_mem_nil x)
    | cons b t' =>
      obtain ⟨m, hm, hmin⟩ := ih (by simp)
      by_cases hle : f a ≤ f m
      · refine ⟨a, List.mem_cons_self _ _, ?_⟩
        intro x hx
        rcases List.mem_cons.mp hx with rfl | hx
        · exact le_rfl
        · exact le_trans hle (hmin x hx)
      · refine ⟨m, List.mem_cons_of_mem _ hm, ?_⟩
        intro x hx
        rcases List.mem_cons.mp hx with rfl | hx
        · exact le_of_lt (Nat.lt_of_not_le hle)
        · exact hmin x hx

theorem kahn_progress (rank : Nat → Nat) (images : List Nat) (edges : List (Nat × Nat))
    (hne : images ≠ [])
    (hsrc : ∀ e ∈ edges, e.1 ∈ images)
    (hrank : ∀ e ∈ edges, rank e.1 < rank e.2) :
    images.filter (noIncoming edges) ≠ [] := by
  obtain ⟨m, hm, hmin⟩ := existsMinBy rank images hne
  have hni : noIncoming edges m = true := by
    unfold noIncoming
    rw [Bool.not_eq_true']
    by_contra hc
    rw [Bool.not_eq_false] at hc
    obtain ⟨e, he, hem⟩ := List.any_eq_true.mp hc
    have hem' : e.2 = m := by simpa using hem
    have h1 := hrank e he
    have h2 := hmin e.1 (hsrc e he)
    rw [hem'] at h1
    omega
  intro hempty
  have hmem : m ∈ images.filter (noIncoming edges) := List.mem_filter.mpr ⟨hm, hni⟩
  rw [hempty] at hmem
  exact absurd hmem (List.not_mem_nil m)

/-- The main property of the `(*images).restore` loop: with acyclic edges
(witnessed by a rank) whose endpoints lie in the vertex list, the loop
appends a permutation of the vertex list to `sorted`, and every edge's source
precedes its target in the appended part. -/
theorem kahnLoop_spec (rank : Nat → Nat) :
    ∀ (fuel : Nat) (images : List Nat) (edges : List (Nat × Nat)) (sorted : List Nat),
      images.length ≤ fuel →
      (∀ e ∈ edges, e.1 ∈ images ∧ e.2 ∈ images) →
      (∀ e ∈ edges, rank e.1 < rank e.2) →
      ∃ tail, kahnLoop fuel images edges sorted = sorted ++ tail ∧
        tail.Perm images ∧
        (∀ e ∈ edges, precedesIn tail e.1 e.2) := by
  intro fuel
  induction fuel with
  | zero =>
    intro images edges sorted hfuel hends hrank
    have himg : images = [] := List.length_eq_zero.mp (Nat.le_zero.mp hfuel)
    subst himg
    refine ⟨[], by simp [kahnLoop], List.Perm.refl _, ?_⟩
    intro e he
    exact absurd (hends e he).1 (List.not_mem_nil _)
  | succ fuel ih =>
    intro images edges sorted hfuel hends hrank
    by_cases hempty : images.isEmpty
    · have himg : images = [] := List.isEmpty_iff.mp hempty
      subst himg
      refine ⟨[], by simp [kahnLoop], List.Perm.refl _, ?_⟩
      intro e he
      exact absurd (hends e he).1 (List.not_mem_nil _)
    · have hne : images ≠ [] := by
        intro hc
        rw [hc] at hempty
        exact hempty rfl
      have hprog := kahn_progress rank images edges hne (fun e he => (hends e he).1) hrank
      -- the target of a live edge is never in `current`
      have htgt_not_cur : ∀ e ∈ edges, e.2 ∉ images.filter (noIncoming edges) := by
        intro e he hmem
        have hni := List.of_mem_filter hmem
        unfold noIncoming at hni
        rw [Bool.not_eq_true'] at hni
        have : edges.any (fun e' => e'.2 == e.2) = true :=
          List.any_eq_true.mpr ⟨e, he, by simp⟩
        rw [this] at hni
        cases hni
      obtain ⟨m, hm⟩ := List.exists_mem_of_ne_nil _ hprog
      have hlen : (images.filter
          (fun i => !((images.filter (noIncoming edges)).contains i))).length
          < images.length := by
        rw [List.length_filter_lt_length_iff_exists]
        refine ⟨m, (List.mem_filter.mp hm).1, ?_⟩
        simp [List.contains, List.elem_iff, hm]
      have hends' : ∀ e ∈ edges.filter
          (fun e => !((images.filter (noIncoming edges)).contains e.1)),
          e.1 ∈ images.filter (fun i => !((images.filter (noIncoming edges)).contains i)) ∧
          e.2 ∈ images.filter (fun i => !((images.filter (noIncoming edges)).contains i)) := by
        intro e he
        obtain ⟨hemem, hsrcb⟩ := List.mem_filter.mp he
        constructor
        · exact List.mem_filter.mpr ⟨(hends e hemem).1, hsrcb⟩
        · refine List.mem_filter.mpr ⟨(hends e hemem).2, ?_⟩
          simp only [Bool.not_eq_true', List.contains, ← Bool.not_eq_true, List.elem_iff]
          exact htgt_not_cur e hemem
      have hrank' : ∀ e ∈ edges.filter
          (fun e => !((images.filter (noIncoming edges)).contains e.1)),
          rank e.1 < rank e.2 := by
        intro e he
        exact hrank e (List.mem_filter.mp he).1
      obtain ⟨tail', heq', hperm', hord'⟩ := ih
        (images.filter (fun i => !((images.filter (noIncoming edges)).contains i)))
        (edges.filter (fun e => !((images.filter (noIncoming edges)).contains e.1)))
        (sorted ++ images.filter (noIncoming edges))
        (by omega) hends' hrank'
      have hcur_eq : images.filter (fun i => (images.filter (noIncoming edges)).contains i)
          = images.filter (noIncoming edges) := by
        apply List.filter_congr
        intro x hx
        by_cases hxc : x ∈ images.filter (noIncoming edges)
        · simp [hxc, List.of_mem_filter hxc]
        · have : noIncoming edges x = false := by
            by_contra hc
            rw [Bool.not_eq_false] at hc
            exact hxc (List.mem_filter.mpr ⟨hx, hc⟩)
          simp [hxc, this]
      have hpart : (images.filter (noIncoming edges) ++
          images.filter (fun i => !((images.filter (noIncoming edges)).contains i))).Perm
          images := by
        have := List.filter_append_perm
          (fun i => (images.filter (noIncoming edges)).contains i) images
        rw [hcur_eq] at this
        exact this
      refine ⟨images.filter (noIncoming edges) ++ tail', ?_, ?_, ?_⟩
      · unfold kahnLoop
        rw [if_neg hempty, heq']
        simp [List.append_assoc]
      · exact ((hperm'.append_left _).trans hpart)
      · intro e he
        by_cases hsrcb : e.1 ∈ images.filter (noIncoming edges)
        · refine ⟨images.filter (noIncoming edges), tail', rfl, hsrcb, ?_⟩
          have h2img : e.2 ∈ images.filter
              (fun i => !((images.filter (noIncoming edges)).contains i)) := by
            refine List.mem_filter.mpr ⟨(hends e he).2, ?_⟩
            simp only [Bool.not_eq_true', List.contains, ← Bool.not_eq_true, List.elem_iff]
            exact htgt_not_cur e he
          exact hperm'.mem_iff.mpr h2img
        · have hein : e ∈ edges.filter
              (fun e => !((images.filter (noIncoming edges)).contains e.1)) := by
            refine List.mem_filter.mpr ⟨he, ?_⟩
            simp only [Bool.not_eq_true', List.contains, ← Bool.not_eq_true, List.elem_iff]
            exact hsrcb
          obtain ⟨l₁, l₂, hsplit, h1, h2⟩ := hord' e hein
          exact ⟨images.filter (noIncoming edges) ++ l₁, l₂,
            by rw [hsplit, List.append_assoc], List.mem_append_right _ h1, h2⟩

/-- C3: the restore algorithm's order is a total order over all
restorable images — a permutation of the image set — in which every priority
image precedes every non-priority image, and for every history dependency
edge `source → target` among the non-priority images the source is restored
before the target. Acyclicity of the history graph (guaranteed by the
stale-on-cycle rules) enters as a rank function; `hdeps` says dependency
sources are live non-priority images. -/
theorem c3_restore_topological_order (imgs : List Nat) (prio : Nat → Bool)
    (deps : Nat → List Nat) (rank : Nat → Nat)
    (hdeps : ∀ t ∈ imgs, prio t = false → ∀ s ∈ deps t, s ∈ imgs ∧ prio s = false)
    (hrank : ∀ t ∈ imgs, prio t = false → ∀ s ∈ deps t, rank s < rank t) :
    (restoreOrder imgs prio deps).Perm imgs ∧
    (∀ p ∈ imgs, prio p = true → ∀ q ∈ imgs, prio q = false →
      precedesIn (restoreOrder imgs prio deps) p q) ∧
    (∀ t ∈ imgs, prio t = false → ∀ s ∈ deps t,
      precedesIn (restoreOrder imgs prio deps) s t) := by
  have hedge_mem : ∀ e ∈ (imgs.filter (fun i => !prio i)).flatMap
      (fun t => (deps t).map (fun s => (s, t))),
      e.2 ∈ imgs.filter (fun i => !prio i) ∧ e.1 ∈ deps e.2 := by
    intro e he
    obtain ⟨t, ht, hmap⟩ := List.mem_flatMap.mp he
    obtain ⟨s, hsd, hst⟩ := List.mem_map.mp hmap
    cases hst
    exact ⟨ht, hsd⟩
  have hends : ∀ e ∈ (imgs.filter (fun i => !prio i)).flatMap
      (fun t => (deps t).map (fun s => (s, t))),
      e.1 ∈ imgs.filter (fun i => !prio i) ∧ e.2 ∈ imgs.filter (fun i => !prio i) := by
    intro e he
    obtain ⟨ht, hsd⟩ := hedge_mem e he
    obtain ⟨htm, htp⟩ := List.mem_filter.mp ht
    have htp' : prio e.2 = false := by simpa using htp
    obtain ⟨hsm, hsp⟩ := hdeps e.2 htm htp' e.1 hsd
    exact ⟨List.mem_filter.mpr ⟨hsm, by simp [hsp]⟩, ht⟩
  have hrank' : ∀ e ∈ (imgs.filter (fun i => !prio i)).flatMap
      (fun t => (deps t).map (fun s => (s, t))),
      rank e.1 < rank e.2 := by
    intro e he
    obtain ⟨ht, hsd⟩ := hedge_mem e he
    obtain ⟨htm, htp⟩ := List.mem_filter.mp ht
    exact hrank e.2 htm (by simpa using htp) e.1 hsd
  obtain ⟨tail, heq, hperm, hord⟩ := kahnLoop_spec rank
    (imgs.filter (fun i => !prio i)).length
    (imgs.filter (fun i => !prio i))
    ((imgs.filter (fun i => !prio i)).flatMap (fun t => (deps t).map (fun s => (s, t))))
    (imgs.filter prio) le_rfl hends hrank'
  have hres : restoreOrder imgs prio deps = imgs.filter prio ++ tail := heq
  refine ⟨?_, ?_, ?_⟩
  · rw [hres]
    exact (hperm.append_left _).trans (List.filter_append_perm prio imgs)
  · intro p hp hpp q hq hqp
    rw [hres]
    refine ⟨imgs.filter prio, tail, rfl, List.mem_filter.mpr ⟨hp, hpp⟩, ?_⟩
    exact hperm.mem_iff.mpr (List.mem_filter.mpr ⟨hq, by simp [hqp]⟩)
  · intro t ht htp s hsd
    have hein : ((s, t) : Nat × Nat) ∈ (imgs.filter (fun i => !prio i)).flatMap
        (fun t => (deps t).map (fun s => (s, t))) := by
      refine List.mem_flatMap.mpr ⟨t, List.mem_filter.mpr ⟨ht, by simp [htp]⟩, ?_⟩
      exact List.mem_map.mpr ⟨s, hsd, rfl⟩
    obtain ⟨l₁, l₂, hsplit, h1, h2⟩ := hord (s, t) hein
    rw [hres]
    exact ⟨imgs.filter prio ++ l₁, l₂, by rw [hsplit, List.append_assoc],
      List.mem_append_right _ h1, h2⟩

/-- Witness for C3: images 1, 2, 3 with the chain 1 → 2 → 3 (A drawn into B
drawn into C) and the priority image 4. -/
theorem c3_restore_topological_order_witness :
    (restoreOrder [1, 2, 3, 4] (fun i => i == 4)
      (fun t => if t == 3 then [2] else if t == 2 then [1] else [])).Perm [1, 2, 3, 4] ∧
    (∀ p ∈ [1, 2, 3, 4], (p == 4) = true → ∀ q ∈ [1, 2, 3, 4], (q == 4) = false →
      precedesIn (restoreOrder [1, 2, 3, 4] (fun i => i == 4)
        (fun t => if t == 3 then [2] else if t == 2 then [1] else [])) p q) ∧
    (∀ t ∈ [1, 2, 3, 4], (t == 4) = false →
      ∀ s ∈ (fun t => if t == 3 then [2] else if t == 2 then [1] else []) t,
        precedesIn (restoreOrder [1, 2, 3, 4] (fun i => i == 4)
          (fun t => if t == 3 then [2] else if t == 2 then [1] else [])) s t) :=
  c3_restore_topological_order [1, 2, 3, 4] (fun i => i == 4)
    (fun t => if t == 3 then [2] else if t == 2 then [1] else []) (fun i => i)
    (by decide) (by decide)

/-! ### C1: promotion after MaxCountForShare frame boundaries -/

theorem c1_frame1 (w h : Nat) (hw : 0 < w) (hw4 : w ≤ 4096) (hh : 0 < h)
    (hh4 : h ≤ 4096) (m : CompMode) :
    sourceOnlyFrame (c1Init w h) 0 1 m = .ok (c1Mid w h m 1) := by
  simp [sourceOnlyFrame, makeImagesShared, makeImagesSharedLoop, makeShared,
    shDrawTriangles, ensureNotShared, allocate, replacePixels, replacePixelsBody,
    regionOf, dispose, moveTo, lookupA, eraseA, setA, shareableImg, MaxCountForShare,
    c1Init, c1Mid, stTryAlloc, allocTryBackends, hw4, hh4, List.replicate]

theorem c1_step (w h k : Nat) (hw4 : w ≤ 4096) (hh4 : h ≤ 4096)
    (hk1 : 1 ≤ k) (hk8 : k ≤ 8) (m : CompMode) :
    sourceOnlyFrame (c1Mid w h m k) 0 1 m = .ok (c1Mid w h m (k + 1)) := by
  have hcnt : ¬ (MaxCountForShare ≤ k + 1) := by
    unfold MaxCountForShare
    omega
  simp [sourceOnlyFrame, makeImagesShared, makeImagesSharedLoop, shDrawTriangles,
    ensureNotShared, c1Mid, lookupA, eraseA, setA, shareableImg, regionOf,
    hcnt, hw4, hh4, List.replicate_succ]

theorem growSizeVal (f w h : Nat) (hw : 0 < w) (hw4 : w ≤ 4096) (hh : 0 < h)
    (hh4 : h ≤ 4096) (hf : 3 ≤ f) :
    ∃ s, growSizeLoop f 1024 4096 w h = .ok s ∧ w ≤ s ∧ h ≤ s := by
  obtain ⟨g, rfl⟩ : ∃ g, f = g + 3 := ⟨f - 3, by omega⟩
  have e1 : growSizeLoop (g + 3) 1024 4096 w h =
      if 1024 < w ∨ 1024 < h then
        (if 1024 = 4096 then .error "shareable: the image being shared is too big"
         else growSizeLoop (g + 2) (1024 * 2) 4096 w h)
      else .ok 1024 := rfl
  have e2 : growSizeLoop (g + 2) 2048 4096 w h =
      if 2048 < w ∨ 2048 < h then
        (if 2048 = 4096 then .error "shareable: the image being shared is too big"
         else growSizeLoop (g + 1) (2048 * 2) 4096 w h)
      else .ok 2048 := rfl
  have e3 : growSizeLoop (g + 1) 4096 4096 w h =
      if 4096 < w ∨ 4096 < h then
        (if 4096 = 4096 then .error "shareable: the image being shared is too big"
         else growSizeLoop g (4096 * 2) 4096 w h)
      else .ok 4096 := rfl
  by_cases h1 : w ≤ 1024 ∧ h ≤ 1024
  · refine ⟨1024, ?_, h1.1, h1.2⟩
    rw [e1, if_neg (by omega)]
  · by_cases h2 : w ≤ 2048 ∧ h ≤ 2048
    · refine ⟨2048, ?_, h2.1, h2.2⟩
      rw [e1, if_pos (by omega), if_neg (by omega)]
      show growSizeLoop (g + 2) 2048 4096 w h = .ok 2048
      rw [e2, if_neg (by omega)]
    · refine ⟨4096, ?_, hw4, hh4⟩
      rw [e1, if_pos (by omega), if_neg (by omega)]
      show growSizeLoop (g + 2) 2048 4096 w h = .ok 4096
      rw [e2, if_pos (by omega), if_neg (by omega)]
      show growSizeLoop (g + 1) 4096 4096 w h = .ok 4096
      rw [e3, if_neg (by omega)]

theorem freshPageAlloc (s maxS w h : Nat) (hw : 0 < w) (hws : w ≤ s) (hh : 0 < h)
    (hhs : h ≤ s) :
    ∃ t, (Page.newPage s maxS).alloc w h = some (⟨0, 0, w, h⟩, ⟨t, s, maxS⟩) := by
  obtain ⟨t, ht⟩ : ∃ t, (PTree.free ⟨0, 0, s, s⟩).alloc w h = some (⟨0, 0, w, h⟩, t) := by
    unfold PTree.alloc
    rw [if_pos (show w ≤ s ∧ h ≤ s from ⟨hws, hhs⟩)]
    by_cases hex : s = w ∧ s = h
    · rw [if_pos hex]
      obtain ⟨hsw, hsh⟩ := hex
      subst hsw
      subst hsh
      exact ⟨_, rfl⟩
    · rw [if_neg hex]
      by_cases hax : s - w ≥ s - h
      · rw [if_pos hax]
        by_cases hch : s = h
        · rw [if_pos hch]
          subst hch
          exact ⟨_, rfl⟩
        · rw [if_neg hch]
          exact ⟨_, rfl⟩
      · rw [if_neg hax]
        by_cases hcw : s = w
        · rw [if_pos hcw]
          subst hcw
          exact ⟨_, rfl⟩
        · rw [if_neg hcw]
          exact ⟨_, rfl⟩
  exact ⟨t, by unfold Page.newPage Page.alloc; rw [if_neg (by omega)]; simp only [ht]⟩

theorem c1_frame10 (w h : Nat) (hw : 0 < w) (hw4 : w ≤ 4096) (hh : 0 < h)
    (hh4 : h ≤ 4096) (m : CompMode) :
    ∃ sz t, sourceOnlyFrame (c1Mid w h m 9) 0 1 m = .ok
      ⟨3, 3, 3,
       [(2, (sz, sz)), (1, (w, h))],
       [(2, ⟨2, some ⟨t, sz, 4096⟩⟩), (1, ⟨1, none⟩)],
       [(1, ⟨w, h, false, some 1, none, 0, false⟩),
        (0, ⟨w, h, false, some 2, some ⟨0, 0, w, h⟩, 0, false⟩)],
       [2], [], 1024, 4096,
       .drawTri 1 2 m :: .replacePix 2 0 0 w h (some (4 * w * h)) ::
         List.replicate 9 (.drawTri 1 0 m)⟩ := by
  obtain ⟨sz, hgrow, hwsz, hhsz⟩ := growSizeVal 4097 w h hw hw4 hh hh4 (by omega)
  obtain ⟨t, halloc⟩ := freshPageAlloc sz 4096 w h hw hwsz hh hhsz
  refine ⟨sz, t, ?_⟩
  simp [sourceOnlyFrame, makeImagesShared, makeImagesSharedLoop, makeShared, shDrawTriangles,
    ensureNotShared, allocate, replacePixels, replacePixelsBody, regionOf, dispose, moveTo,
    shNewImage, lookupA, eraseA, setA, shareableImg, MaxCountForShare, c1Mid, stTryAlloc,
    allocTryBackends, ImgRec.isShared, hgrow, halloc, hw4, hh4]

theorem iterFrames_succ_right (src tgt : Nat) (m : CompMode) (n : Nat) :
    ∀ st, iterFrames src tgt m (n + 1) st =
      match iterFrames src tgt m n st with
      | .error e => .error e
      | .ok s => sourceOnlyFrame s src tgt m := by
  induction n with
  | zero =>
    intro st
    show (match sourceOnlyFrame st src tgt m with
      | Except.error e => Except.error e
      | Except.ok st₁ => iterFrames src tgt m 0 st₁) = _
    cases hf : sourceOnlyFrame st src tgt m <;> simp [iterFrames, hf]
  | succ n ih =>
    intro st
    show (match sourceOnlyFrame st src tgt m with
      | Except.error e => Except.error e
      | Except.ok st₁ => iterFrames src tgt m (n + 1) st₁) = _
    cases hf : sourceOnlyFrame st src tgt m with
    | error e =>
      have hR : iterFrames src tgt m (n + 1) st = Except.error e := by
        show (match sourceOnlyFrame st src tgt m with
          | Except.error e => Except.error e
          | Except.ok st₁ => iterFrames src tgt m n st₁) = Except.error e
        rw [hf]
      rw [hR]
    | ok st₁ =>
      have hL : (match (Except.ok st₁ : Except String ShState) with
          | Except.error e => Except.error e
          | Except.ok s => iterFrames src tgt m (n + 1) s) =
          iterFrames src tgt m (n + 1) st₁ := rfl
      rw [hL, ih st₁]
      have hR : iterFrames src tgt m (n + 1) st = iterFrames src tgt m n st₁ := by
        show (match sourceOnlyFrame st src tgt m with
          | Except.error e => Except.error e
          | Except.ok s => iterFrames src tgt m n s) = _
        rw [hf]
      rw [hR]

theorem c1_iter_mid (w h : Nat) (hw : 0 < w) (hw4 : w ≤ 4096) (hh : 0 < h)
    (hh4 : h ≤ 4096) (m : CompMode) : ∀ k, 1 ≤ k → k ≤ 9 →
    iterFrames 0 1 m k (c1Init w h) = .ok (c1Mid w h m k) := by
  intro k
  induction k with
  | zero => intro h1 _; omega
  | succ k ih =>
    intro _ hk9
    by_cases hk0 : k = 0
    · subst hk0
      show iterFrames 0 1 m (0 + 1) (c1Init w h) = .ok (c1Mid w h m 1)
      rw [iterFrames_succ_right]
      show sourceOnlyFrame (c1Init w h) 0 1 m = .ok (c1Mid w h m 1)
      exact c1_frame1 w h hw hw4 hh hh4 m
    · have hk1 : 1 ≤ k := by omega
      rw [iterFrames_succ_right, ih hk1 (by omega)]
      show sourceOnlyFrame (c1Mid w h m k) 0 1 m = .ok (c1Mid w h m (k + 1))
      exact c1_step w h k hw4 hh4 hk1 (by omega) m

/-- C1: starting from a state where the private `w × h` image 0 is a
promotion candidate with `nonUpdatedCount = 0`, along the frame-step relation
in which image 0 is used each frame only as a draw source (into image 1) and
never as a `DrawTriangles` target, `nonUpdatedCount` increments at each of
the first nine frame boundaries while the image stays unshared and tracked in
`imagesToMakeShared`; at the tenth boundary the counter reaches
`MaxCountForShare = 10` and the image is promoted: it then reports
`isShared() = true`, holding a node of its own size inside an atlas backend
(its pixels uploaded there and the record swapped by `moveTo`). -/
theorem c1_promotion_after_ten_frames (w h : Nat) (hw : 0 < w) (hw4 : w ≤ 4096)
    (hh : 0 < h) (hh4 : h ≤ 4096) (m : CompMode) :
    (∀ k, 1 ≤ k → k ≤ 9 →
      ∃ st, iterFrames 0 1 m k (c1Init w h) = .ok st ∧
        lookupA st.imgs 0 = some ⟨w, h, false, some 0, none, k, false⟩ ∧
        (⟨w, h, false, some 0, none, k, false⟩ : ImgRec).isShared = false ∧
        0 ∈ st.toShare) ∧
    (∃ st, iterFrames 0 1 m 10 (c1Init w h) = .ok st ∧
      ∃ rec, lookupA st.imgs 0 = some rec ∧ rec.isShared = true ∧
        rec.nonUpdatedCount = 0 ∧ rec.node = some ⟨0, 0, w, h⟩) := by
  constructor
  · intro k hk1 hk9
    refine ⟨c1Mid w h m k, c1_iter_mid w h hw hw4 hh hh4 m k hk1 hk9, ?_, rfl, ?_⟩
    · simp [c1Mid, lookupA]
    · simp [c1Mid]
  · obtain ⟨sz, t, h10⟩ := c1_frame10 w h hw hw4 hh hh4 m
    refine ⟨⟨3, 3, 3,
        [(2, (sz, sz)), (1, (w, h))],
        [(2, ⟨2, some ⟨t, sz, 4096⟩⟩), (1, ⟨1, none⟩)],
        [(1, ⟨w, h, false, some 1, none, 0, false⟩),
         (0, ⟨w, h, false, some 2, some ⟨0, 0, w, h⟩, 0, false⟩)],
        [2], [], 1024, 4096,
        .drawTri 1 2 m :: .replacePix 2 0 0 w h (some (4 * w * h)) ::
          List.replicate 9 (.drawTri 1 0 m)⟩, ?_,
      ⟨w, h, false, some 2, some ⟨0, 0, w, h⟩, 0, false⟩, ?_, rfl, rfl, rfl⟩
    · show iterFrames 0 1 m (9 + 1) (c1Init w h) = _
      rw [iterFrames_succ_right, c1_iter_mid w h hw hw4 hh hh4 m 9 (by omega) (by omega)]
      exact h10
    · simp [lookupA]

/-- Witness for C1: a 100×100 image, the size used by the spec's end-to-end
sharing scenario. -/
theorem c1_promotion_after_ten_frames_witness :
    (∀ k, 1 ≤ k → k ≤ 9 →
      ∃ st, iterFrames 0 1 .sourceOver k (c1Init 100 100) = .ok st ∧
        lookupA st.imgs 0 = some ⟨100, 100, false, some 0, none, k, false⟩ ∧
        (⟨100, 100, false, some 0, none, k, false⟩ : ImgRec).isShared = false ∧
        0 ∈ st.toShare) ∧
    (∃ st, iterFrames 0 1 .sourceOver 10 (c1Init 100 100) = .ok st ∧
      ∃ rec, lookupA st.imgs 0 = some rec ∧ rec.isShared = true ∧
        rec.nonUpdatedCount = 0 ∧ rec.node = some ⟨0, 0, 100, 100⟩) :=
  c1_promotion_after_ten_frames 100 100 (by decide) (by decide) (by decide) (by decide)
    .sourceOver

end Ebiten
